import Mathlib

/-!
# otel_zipkin: serviceA and serviceB

A shallow embedding of the two HTTP handlers of the repository
(`src/serviceA/main.go`, `src/serviceB/main.go`) and of the standard-library
operations they rely on.

Conventions of the embedding:

* A Go `string` and a Go `[]byte` are both sequences of bytes (`Bytes`).
* A handler is a function of the execution environment (environment
  variables and the answers of the remote peers) and of the inbound request
  to the pair of the response it leaves in the `ResponseWriter` and the
  chronological trace of the effects it performed (spans started, outbound
  HTTP calls).
* `regexp`, `unicode/utf8`, `encoding/json` and `float64` arithmetic are
  modelled by executable definitions; of `net/http` the server's
  `ResponseWriter` is modelled with its checks on the status code
  (`WriteHeader` panics outside `100..999`, statuses without a body refuse
  the data) and `client.Do` asks the environment.
* Time-outs and cancellation of an outbound call are errors of `client.Do`.
  The functions `initTracer` and `main` only wire the process and are not
  represented.
-/

/-! ## Bytes and UTF-8 -/

/-- A Go string or byte slice. -/
abbrev Bytes := List UInt8

/-- The bytes of a string constant of the source (UTF-8, as Go stores it). -/
def str (s : String) : Bytes := s.toList.flatMap String.utf8EncodeChar

/-- The value `utf8.RuneError`. -/
def RuneError : Nat := 0xFFFD

/-- The range accepted for the second byte of a multi-byte sequence that
starts with `p0` (table `acceptRanges` of `unicode/utf8`). -/
def acceptRange (p0 : Nat) : Nat × Nat :=
  if p0 = 0xE0 then (0xA0, 0xBF)
  else if p0 = 0xED then (0x80, 0x9F)
  else if p0 = 0xF0 then (0x90, 0xBF)
  else if p0 = 0xF4 then (0x80, 0x8F)
  else (0x80, 0xBF)

/-- Continuation byte test (`locb ≤ b ≤ hicb`). -/
def isCont (b : Nat) : Bool := 0x80 ≤ b && b ≤ 0xBF

/-- The function `utf8.DecodeRune`: the first rune of `p` and its width in
bytes; `(RuneError, 0)` on empty input and `(RuneError, 1)` on an invalid
encoding.  The masks and shifts of the original are written with `%` and `*`
(`p0 & 0x1F` is `p0 % 32`, `x << 6` is `x * 64`, and the or-ed fields are
disjoint). -/
def decodeRune : Bytes → Nat × Nat
  | [] => (RuneError, 0)
  | c0 :: rest =>
    let p0 := c0.toNat
    if p0 < 0x80 then (p0, 1)
    else if p0 < 0xC2 ∨ 0xF4 < p0 then (RuneError, 1)
    else
      match rest with
      | [] => (RuneError, 1)
      | c1 :: rest1 =>
        let b1 := c1.toNat
        if b1 < (acceptRange p0).1 ∨ (acceptRange p0).2 < b1 then (RuneError, 1)
        else if p0 < 0xE0 then (p0 % 32 * 64 + b1 % 64, 2)
        else
          match rest1 with
          | [] => (RuneError, 1)
          | c2 :: rest2 =>
            let b2 := c2.toNat
            if !isCont b2 then (RuneError, 1)
            else if p0 < 0xF0 then (p0 % 16 * 4096 + b1 % 64 * 64 + b2 % 64, 3)
            else
              match rest2 with
              | [] => (RuneError, 1)
              | c3 :: _ =>
                let b3 := c3.toNat
                if !isCont b3 then (RuneError, 1)
                else (p0 % 8 * 262144 + b1 % 64 * 4096 + b2 % 64 * 64 + b3 % 64, 4)

/-- The function `utf8.AppendRune` (`EncodeRune`): the UTF-8 bytes of a rune;
surrogates and out-of-range values are encoded as `RuneError`. -/
def encodeRune (r : Nat) : Bytes :=
  if r < 0x80 then [UInt8.ofNat r]
  else if r < 0x800 then [UInt8.ofNat (0xC0 + r / 64), UInt8.ofNat (0x80 + r % 64)]
  else if 0x10FFFF < r ∨ (0xD800 ≤ r ∧ r ≤ 0xDFFF) then [0xEF, 0xBF, 0xBD]
  else if r < 0x10000 then
    [UInt8.ofNat (0xE0 + r / 4096), UInt8.ofNat (0x80 + r / 64 % 64), UInt8.ofNat (0x80 + r % 64)]
  else
    [UInt8.ofNat (0xF0 + r / 262144), UInt8.ofNat (0x80 + r / 4096 % 64),
     UInt8.ofNat (0x80 + r / 64 % 64), UInt8.ofNat (0x80 + r % 64)]

/-! ## Regular expressions (package `regexp`)

Only the operators that occur in the pattern of `cepRegex` are represented.
The matcher is a backtracking matcher over the bytes of the subject, reading
runes with `decodeRune` as `regexp` does. -/

/-- Syntax of the regular expressions in use. -/
inductive Regexp where
  /-- The operator `^` without the `m` flag: beginning of text. -/
  | beginText
  /-- The operator `$` without the `m` flag: end of text. -/
  | endText
  /-- One rune in the range `lo..hi`. -/
  | charClass (lo hi : Nat)
  /-- Concatenation. -/
  | concat (a b : Regexp)
  /-- The counted repetition `r{n}`. -/
  | rep (r : Regexp) (n : Nat)

/-- The Perl class `\d`, which in Go's syntax is exactly `[0-9]`. -/
def perlDigit : Regexp := .charClass 0x30 0x39

/-- A matcher state: the byte offset reached and the bytes still to read. -/
abbrev MatchState := Nat × Bytes

/-- All states in which a match of the expression that starts in the given
state can end. -/
def Regexp.step : Regexp → MatchState → List MatchState
  | .beginText, st => if st.1 = 0 then [st] else []
  | .endText, st => if st.2.isEmpty then [st] else []
  | .charClass lo hi, st =>
    match st.2 with
    | [] => []
    | c :: cs =>
      let rw := decodeRune (c :: cs)
      if lo ≤ rw.1 ∧ rw.1 ≤ hi then [(st.1 + rw.2, (c :: cs).drop rw.2)] else []
  | .concat a b, st => (a.step st).flatMap (fun s => b.step s)
  | .rep r n, st => Nat.iterate (fun sts => sts.flatMap (fun s => r.step s)) n [st]

/-- Unanchored search: is there a match starting at the current rune or at a
later one?  The first argument bounds the number of start positions tried. -/
def Regexp.search (re : Regexp) : Nat → MatchState → Bool
  | 0, _ => false
  | fuel + 1, st =>
    if !(re.step st).isEmpty then true
    else
      match st.2 with
      | [] => false
      | c :: cs =>
        let w := (decodeRune (c :: cs)).2
        re.search fuel (st.1 + w, (c :: cs).drop w)

/-- The method `(*Regexp).MatchString`: does the subject contain a match? -/
def Regexp.MatchString (re : Regexp) (s : Bytes) : Bool :=
  re.search (s.length + 1) (0, s)

/-- The pattern of `regexp.MustCompile` in `serviceA`: `^\d{8}$`. -/
def cepRegex : Regexp :=
  .concat .beginText (.concat (.rep perlDigit 8) .endText)

/-- The specification's reading of the validator: exactly eight bytes, each
an ASCII decimal digit. -/
def isEightDigits (s : Bytes) : Prop :=
  s.length = 8 ∧ ∀ b ∈ s, 0x30 ≤ b.toNat ∧ b.toNat ≤ 0x39


/-! ## The type `float64`

IEEE 754 binary64 with round-to-nearest-even.  A finite value is kept in
canonical form, so that equality of representations is identity of values
(the two zeros are distinct representations, as they are distinct bit
patterns). -/

/-- A binary64 value.  `finite neg mant exp` is `(-1)^neg * mant * 2^(exp - 1074)`
with `mant < 2^53`, `exp ≤ 2045`, and `mant ≥ 2^52` unless `exp = 0`. -/
inductive Float64 where
  | finite (neg : Bool) (mant : Nat) (exp : Nat)
  | inf (neg : Bool)
  | nan
  deriving DecidableEq, Repr

/-- Number of binary digits of `n`, with a bound on the recursion. -/
def bitLenAux : Nat → Nat → Nat
  | 0, _ => 0
  | fuel + 1, n => if n = 0 then 0 else bitLenAux fuel (n / 2) + 1

/-- Number of binary digits of `n` (`0` for `0`). -/
def bitLen (n : Nat) : Nat := bitLenAux n n

/-- The binary64 value nearest to `(-1)^neg * n / d` (ties to even); an
infinity when the rounded value exceeds the largest finite value. -/
def roundRat (neg : Bool) (n d : Nat) : Float64 :=
  -- the value in units of 2^-1074 is N / d
  let N := n * 2 ^ 1074
  -- exponent of the unit in the last place: 53 significant bits, at least 0
  let q := bitLen (N / d) - 53
  let D := d * 2 ^ q
  let k := N / D
  let r := N % D
  let k1 := if D < 2 * r ∨ (2 * r = D ∧ k % 2 = 1) then k + 1 else k
  let mant := if k1 = 2 ^ 53 then 2 ^ 52 else k1
  let exp := if k1 = 2 ^ 53 then q + 1 else q
  if 2045 < exp then .inf neg else .finite neg mant exp

/-- Conversion of an integer constant. -/
def Float64.ofNat (n : Nat) : Float64 := roundRat false n 1

/-- Conversion of the decimal constant `n / 10^k` (such as `1.8`, which is
`18 / 10^1`). -/
def Float64.ofDecimal (n k : Nat) : Float64 := roundRat false n (10 ^ k)

/-- The operator `*` on `float64`. -/
def Float64.mul : Float64 → Float64 → Float64
  | .nan, _ => .nan
  | _, .nan => .nan
  | .inf s1, .inf s2 => .inf (s1 != s2)
  | .inf s1, .finite s2 m2 _ => if m2 = 0 then .nan else .inf (s1 != s2)
  | .finite s1 m1 _, .inf s2 => if m1 = 0 then .nan else .inf (s1 != s2)
  | .finite s1 m1 e1, .finite s2 m2 e2 =>
    roundRat (s1 != s2) (m1 * m2 * 2 ^ (e1 + e2)) (2 ^ 2148)

/-- The operator `+` on `float64`. -/
def Float64.add : Float64 → Float64 → Float64
  | .nan, _ => .nan
  | _, .nan => .nan
  | .inf s1, .inf s2 => if s1 = s2 then .inf s1 else .nan
  | .inf s1, .finite _ _ _ => .inf s1
  | .finite _ _ _, .inf s2 => .inf s2
  | .finite s1 m1 e1, .finite s2 m2 e2 =>
    let a := m1 * 2 ^ e1
    let b := m2 * 2 ^ e2
    if s1 = s2 then roundRat s1 (a + b) (2 ^ 1074)
    else if a = b then .finite false 0 0
    else if b < a then roundRat s1 (a - b) (2 ^ 1074)
    else roundRat s2 (b - a) (2 ^ 1074)

instance : Mul Float64 := ⟨Float64.mul⟩
instance : Add Float64 := ⟨Float64.add⟩

/-- The fused multiply-add `x*y + z` with a single rounding (`math.FMA`, and
what a compiler that fuses the expression `x*y + z` emits). -/
def Float64.fma : Float64 → Float64 → Float64 → Float64
  | .nan, _, _ => .nan
  | _, .nan, _ => .nan
  | _, _, .nan => .nan
  | .inf s1, .inf s2, z => Float64.add (.inf (s1 != s2)) z
  | .inf s1, .finite s2 m2 _, z => if m2 = 0 then .nan else Float64.add (.inf (s1 != s2)) z
  | .finite s1 m1 _, .inf s2, z => if m1 = 0 then .nan else Float64.add (.inf (s1 != s2)) z
  | .finite _ _ _, .finite _ _ _, .inf s3 => .inf s3
  | .finite s1 m1 e1, .finite s2 m2 e2, .finite s3 m3 e3 =>
    -- the exact product and the addend, in units of 2^-2148
    let p := m1 * m2 * 2 ^ (e1 + e2)
    let c := m3 * 2 ^ (e3 + 1074)
    if (s1 != s2) = s3 then roundRat s3 (p + c) (2 ^ 2148)
    else if p = c then .finite false 0 0
    else if c < p then roundRat (s1 != s2) (p - c) (2 ^ 2148)
    else roundRat s3 (c - p) (2 ^ 2148)

/-- The value of a Go expression `x*y + z` on `float64`.  The language lets an
implementation fuse the product and the sum into one operation with a single
rounding (the gc compiler does so on arm64, ppc64le, s390x, riscv64 and on
amd64 with `GOAMD64=v3`); otherwise each is rounded on its own. -/
def Float64.mulAdd (fused : Bool) (x y z : Float64) : Float64 :=
  if fused then Float64.fma x y z else Float64.add (Float64.mul x y) z

/-- Neither an infinity nor a NaN (`!math.IsInf(f, 0) && !math.IsNaN(f)`). -/
def Float64.isFinite : Float64 → Bool
  | .finite _ _ _ => true
  | _ => false

/-- The unary operator `-` on `float64`. -/
def Float64.neg : Float64 → Float64
  | .finite s m e => .finite (!s) m e
  | .inf s => .inf (!s)
  | .nan => .nan

instance : Neg Float64 := ⟨Float64.neg⟩

/-- An integer constant of the source, converted to `float64`. -/
instance : OfNat Float64 n := ⟨Float64.ofNat n⟩

/-- A decimal constant of the source, converted to `float64`. -/
instance : OfScientific Float64 :=
  ⟨fun m s e => if s then Float64.ofDecimal m e else Float64.ofNat (m * 10 ^ e)⟩

/-! ## Errors -/

/-- Go `error` values that the two programs distinguish: the two sentinels of
`serviceB` and every other error (of the libraries), told apart only by
`errors.Is`. -/
inductive GoError where
  | ErrInvalidCEP
  | ErrCEPNotFound
  | other (msg : String)
  deriving DecidableEq, Repr

deriving instance DecidableEq for Except

/-! ## Package `encoding/json`: reading -/

/-- A parsed JSON text.  A number keeps its literal, an object member keeps
the source text of its value (what a `json.RawMessage` field receives). -/
inductive JsonValue where
  | null
  | bool (b : Bool)
  | number (lit : Bytes)
  | string (s : Bytes)
  | array (xs : List JsonValue)
  | object (members : List (Bytes × Bytes × JsonValue))

/-- The limit `maxNestingDepth` of the scanner. -/
def maxNestingDepth : Nat := 10000

/-- The scanner's `isSpace`. -/
def isSpace (b : Nat) : Bool := b = 0x20 || b = 0x09 || b = 0x0D || b = 0x0A

/-- Drop leading white space. -/
def skipWS : Bytes → Bytes
  | [] => []
  | c :: cs => if isSpace c.toNat then skipWS cs else c :: cs

/-- ASCII decimal digit. -/
def isDigit (b : Nat) : Bool := 0x30 ≤ b && b ≤ 0x39

/-- Value of a hexadecimal digit. -/
def hexVal (b : Nat) : Option Nat :=
  if 0x30 ≤ b ∧ b ≤ 0x39 then some (b - 0x30)
  else if 0x61 ≤ b ∧ b ≤ 0x66 then some (b - 0x61 + 10)
  else if 0x41 ≤ b ∧ b ≤ 0x46 then some (b - 0x41 + 10)
  else none

/-- The helper `getu4`, applied to what follows the two bytes `\u`: the value
of the next four hexadecimal digits. -/
def hex4 : Bytes → Option (Nat × Bytes)
  | a :: b :: c :: d :: rest =>
    match hexVal a.toNat, hexVal b.toNat, hexVal c.toNat, hexVal d.toNat with
    | some x, some y, some z, some w => some (x * 4096 + y * 256 + z * 16 + w, rest)
    | _, _, _, _ => none
  | _ => none

/-- The body of a string literal, read after its opening quote: the decoded
Go string and the input that follows the closing quote.  This is the
scanner's validation together with `unquote`: escapes are resolved, a
surrogate pair becomes one rune, an unpaired surrogate and every byte that is
not valid UTF-8 become U+FFFD, and a control character is an error.  The
first argument bounds the number of steps. -/
def parseString : Nat → Bytes → Bytes → Option (Bytes × Bytes)
  | 0, _, _ => none
  | _ + 1, _, [] => none
  | fuel + 1, acc, c :: cs =>
    let b := c.toNat
    if b = 0x22 then some (acc, cs)
    else if b = 0x5C then
      match cs with
      | [] => none
      | e :: es =>
        let x := e.toNat
        if x = 0x22 ∨ x = 0x5C ∨ x = 0x2F then parseString fuel (acc ++ [e]) es
        else if x = 0x62 then parseString fuel (acc ++ [0x08]) es
        else if x = 0x66 then parseString fuel (acc ++ [0x0C]) es
        else if x = 0x6E then parseString fuel (acc ++ [0x0A]) es
        else if x = 0x72 then parseString fuel (acc ++ [0x0D]) es
        else if x = 0x74 then parseString fuel (acc ++ [0x09]) es
        else if x = 0x75 then
          match hex4 es with
          | none => none
          | some (rr, rest) =>
            if 0xD800 ≤ rr ∧ rr < 0xE000 then
              match rest with
              | s :: u :: more =>
                if s.toNat = 0x5C ∧ u.toNat = 0x75 then
                  match hex4 more with
                  | some (rr1, rest1) =>
                    if rr < 0xDC00 ∧ 0xDC00 ≤ rr1 ∧ rr1 < 0xE000 then
                      parseString fuel
                        (acc ++ encodeRune ((rr - 0xD800) * 1024 + (rr1 - 0xDC00) + 0x10000)) rest1
                    else parseString fuel (acc ++ encodeRune RuneError) rest
                  | none => parseString fuel (acc ++ encodeRune RuneError) rest
                else parseString fuel (acc ++ encodeRune RuneError) rest
              | _ => parseString fuel (acc ++ encodeRune RuneError) rest
            else parseString fuel (acc ++ encodeRune rr) rest
        else none
    else if b < 0x20 then none
    else if b < 0x80 then parseString fuel (acc ++ [c]) cs
    else
      let rw := decodeRune (c :: cs)
      parseString fuel (acc ++ encodeRune rw.1) ((c :: cs).drop rw.2)

/-- Split off the leading decimal digits. -/
def spanDigits : Bytes → Bytes × Bytes
  | [] => ([], [])
  | c :: cs =>
    if isDigit c.toNat then ((spanDigits cs).1.cons c, (spanDigits cs).2) else ([], c :: cs)

/-- A number literal at the head of the input, by the JSON grammar
`-? (0 | [1-9][0-9]*) (. [0-9]+)? ([eE] [+-]? [0-9]+)?`: its text and the
input that follows. -/
def parseNumber (input : Bytes) : Option (Bytes × Bytes) :=
  let sign : Bytes × Bytes :=
    match input with
    | c :: cs => if c.toNat = 0x2D then ([c], cs) else ([], c :: cs)
    | [] => ([], [])
  let int : Option (Bytes × Bytes) :=
    match sign.2 with
    | c :: cs =>
      if c.toNat = 0x30 then some ([c], cs)
      else if isDigit c.toNat then some ((spanDigits (c :: cs)).1, (spanDigits (c :: cs)).2)
      else none
    | [] => none
  match int with
  | none => none
  | some (ds, rest) =>
    let frac : Option (Bytes × Bytes) :=
      match rest with
      | c :: cs =>
        if c.toNat = 0x2E then
          (if (spanDigits cs).1.isEmpty then none
           else some (c :: (spanDigits cs).1, (spanDigits cs).2))
        else some ([], c :: cs)
      | [] => some ([], [])
    match frac with
    | none => none
    | some (fs, rest1) =>
      let exp : Option (Bytes × Bytes) :=
        match rest1 with
        | c :: cs =>
          if c.toNat = 0x65 ∨ c.toNat = 0x45 then
            let sg : Bytes × Bytes :=
              match cs with
              | s :: ss => if s.toNat = 0x2B ∨ s.toNat = 0x2D then ([s], ss) else ([], s :: ss)
              | [] => ([], [])
            (if (spanDigits sg.2).1.isEmpty then none
             else some (c :: sg.1 ++ (spanDigits sg.2).1, (spanDigits sg.2).2))
          else some ([], c :: cs)
        | [] => some ([], [])
      match exp with
      | none => none
      | some (es, rest2) => some (sign.1 ++ ds ++ fs ++ es, rest2)

/-- Does the input start with the given literal?  Returns what follows it. -/
def expectBytes : Bytes → Bytes → Option Bytes
  | [], input => some input
  | _ :: _, [] => none
  | l :: ls, c :: cs => if l = c then expectBytes ls cs else none

mutual
/-- One JSON value at the head of the input (white space before it is
skipped) and the input that follows it.  The first argument bounds the
number of steps, the second is the number of enclosing arrays and objects. -/
def parseValue : Nat → Nat → Bytes → Option (JsonValue × Bytes)
  | 0, _, _ => none
  | fuel + 1, depth, input =>
    match skipWS input with
    | [] => none
    | c :: cs =>
      let b := c.toNat
      if b = 0x7B then
        if maxNestingDepth ≤ depth then none
        else
          match skipWS cs with
          | [] => none
          | d :: ds =>
            if d.toNat = 0x7D then some (.object [], ds)
            else
              match parseMembers fuel (depth + 1) (d :: ds) with
              | none => none
              | some (ms, rest) => some (.object ms, rest)
      else if b = 0x5B then
        if maxNestingDepth ≤ depth then none
        else
          match skipWS cs with
          | [] => none
          | d :: ds =>
            if d.toNat = 0x5D then some (.array [], ds)
            else
              match parseElements fuel (depth + 1) (d :: ds) with
              | none => none
              | some (xs, rest) => some (.array xs, rest)
      else if b = 0x22 then
        match parseString (cs.length + 1) [] cs with
        | none => none
        | some (s, rest) => some (.string s, rest)
      else if b = 0x2D ∨ isDigit b then
        match parseNumber (c :: cs) with
        | none => none
        | some (lit, rest) => some (.number lit, rest)
      else if b = 0x74 then (expectBytes (str "rue") cs).map (fun rest => (.bool true, rest))
      else if b = 0x66 then (expectBytes (str "alse") cs).map (fun rest => (.bool false, rest))
      else if b = 0x6E then (expectBytes (str "ull") cs).map (fun rest => (.null, rest))
      else none
/-- The members of an object, from the opening quote of a key up to and
including the closing brace. -/
def parseMembers : Nat → Nat → Bytes → Option (List (Bytes × Bytes × JsonValue) × Bytes)
  | 0, _, _ => none
  | fuel + 1, depth, input =>
    match input with
    | [] => none
    | c :: cs =>
      if c.toNat ≠ 0x22 then none
      else
        match parseString (cs.length + 1) [] cs with
        | none => none
        | some (key, rest) =>
          match skipWS rest with
          | [] => none
          | k :: rest1 =>
            if k.toNat ≠ 0x3A then none
            else
              let start := skipWS rest1
              match parseValue fuel depth start with
              | none => none
              | some (v, rest2) =>
                let raw := start.take (start.length - rest2.length)
                match skipWS rest2 with
                | [] => none
                | s :: rest3 =>
                  if s.toNat = 0x7D then some ([(key, raw, v)], rest3)
                  else if s.toNat = 0x2C then
                    match parseMembers fuel depth (skipWS rest3) with
                    | none => none
                    | some (ms, rest4) => some ((key, raw, v) :: ms, rest4)
                  else none
/-- The elements of an array, from the first element up to and including the
closing bracket. -/
def parseElements : Nat → Nat → Bytes → Option (List JsonValue × Bytes)
  | 0, _, _ => none
  | fuel + 1, depth, input =>
    match parseValue fuel depth input with
    | none => none
    | some (v, rest) =>
      match skipWS rest with
      | [] => none
      | s :: rest1 =>
        if s.toNat = 0x5D then some ([v], rest1)
        else if s.toNat = 0x2C then
          match parseElements fuel depth rest1 with
          | none => none
          | some (xs, rest2) => some (v :: xs, rest2)
        else none
end

/-- The JSON value that `(*Decoder).Decode` reads from a stream holding
`input`: the first value of the stream; what follows it is left unread.  The
bound on the number of steps exceeds what a text of that length can need. -/
def decodeValue (input : Bytes) : Except GoError JsonValue :=
  match parseValue (2 * input.length + 2) 0 input with
  | none => .error (.other "json: invalid or missing value")
  | some (v, _) => .ok v

/-- The JSON value that `json.Unmarshal` reads from `input`: the whole input
must be one value, with white space around it at most. -/
def unmarshalValue (input : Bytes) : Except GoError JsonValue :=
  match parseValue (2 * input.length + 2) 0 input with
  | none => .error (.other "json: invalid value")
  | some (v, rest) =>
    if (skipWS rest).isEmpty then .ok v else .error (.other "json: invalid character after value")

/-- ASCII lower case of a byte. -/
def asciiLower (c : UInt8) : UInt8 :=
  if 0x41 ≤ c.toNat ∧ c.toNat ≤ 0x5A then UInt8.ofNat (c.toNat + 0x20) else c

/-- Does an object key select the struct field with the given (lower-case)
JSON name?  The decoder takes an exact match, else a match under case
folding; the field names in use contain neither `k` nor `s`, the only ASCII
letters to which a non-ASCII rune folds, so folding is ASCII case folding. -/
def keyMatches (name key : Bytes) : Bool := key.map asciiLower = name

/-- The function `strconv.ParseFloat(lit, 64)` on a JSON number literal; it
fails when the value is out of range. -/
def parseFloat (lit : Bytes) : Except GoError Float64 :=
  let neg := match lit with
    | c :: _ => decide (c.toNat = 0x2D)
    | [] => false
  let body := if neg then lit.drop 1 else lit
  let int := spanDigits body
  let frac : Bytes × Bytes :=
    match int.2 with
    | c :: cs => if c.toNat = 0x2E then spanDigits cs else ([], c :: cs)
    | [] => ([], [])
  let expNeg : Bool :=
    match frac.2 with
    | _ :: s :: _ => decide (s.toNat = 0x2D)
    | _ => false
  let expDigits : Bytes :=
    match frac.2 with
    | _ :: s :: ss => if s.toNat = 0x2B ∨ s.toNat = 0x2D then (spanDigits ss).1 else (spanDigits (s :: ss)).1
    | _ => []
  let value (ds : Bytes) : Nat := ds.foldl (fun n d => 10 * n + (d.toNat - 0x30)) 0
  let mant := value (int.1 ++ frac.1)
  let e := value expDigits
  let k := frac.1.length
  -- the value is mant * 10^(±e - k)
  let f :=
    if expNeg then roundRat neg mant (10 ^ (e + k))
    else if k ≤ e then roundRat neg (mant * 10 ^ (e - k)) 1
    else roundRat neg mant (10 ^ (k - e))
  if f.isFinite then .ok f else .error (.other "strconv.ParseFloat: value out of range")

/-! ## Package `encoding/json`: the types of the two programs -/

/-- The request body of both services (`type CEPRequest struct`). -/
structure CEPRequest where
  CEP : Bytes
  deriving DecidableEq, Repr

/-- The payload of the directory API (`type ViaCEPResponse struct`); `Erro`
is a `json.RawMessage`. -/
structure ViaCEPResponse where
  Localidade : Bytes
  Erro : Bytes
  deriving DecidableEq, Repr

/-- The anonymous struct of the field `Current` of `WeatherResponse`. -/
structure WeatherCurrent where
  TempC : Float64
  deriving DecidableEq, Repr

/-- The payload of the weather API (`type WeatherResponse struct`). -/
structure WeatherResponse where
  Current : WeatherCurrent
  deriving DecidableEq, Repr

/-- The body composed by `serviceB` (`type Response struct`). -/
structure Response where
  City : Bytes
  TempC : Float64
  TempF : Float64
  TempK : Float64
  deriving DecidableEq, Repr

/-- Store a JSON value into a field of type `string`: a string is stored,
`null` leaves the field as it is, anything else is an `UnmarshalTypeError`. -/
def storeString (old : Bytes) : JsonValue → Except GoError Bytes
  | .string s => .ok s
  | .null => .ok old
  | _ => .error (.other "json: cannot unmarshal value into Go value of type string")

/-- Store a JSON value into a field of type `float64`. -/
def storeFloat (old : Float64) : JsonValue → Except GoError Float64
  | .number lit => parseFloat lit
  | .null => .ok old
  | _ => .error (.other "json: cannot unmarshal value into Go value of type float64")

/-- Store the members of a JSON object into a `CEPRequest`, in order. -/
def CEPRequest.store : List (Bytes × Bytes × JsonValue) → CEPRequest → Except GoError CEPRequest
  | [], req => .ok req
  | (key, _, v) :: ms, req =>
    if keyMatches (str "cep") key then
      match storeString req.CEP v with
      | .error e => .error e
      | .ok s => CEPRequest.store ms { CEP := s }
    else CEPRequest.store ms req

/-- The call `json.NewDecoder(r.Body).Decode(&req)` on a fresh `req`. -/
def CEPRequest.Decode (body : Bytes) : Except GoError CEPRequest :=
  match decodeValue body with
  | .error e => .error e
  | .ok (.object ms) => CEPRequest.store ms { CEP := [] }
  | .ok .null => .ok { CEP := [] }
  | .ok _ => .error (.other "json: cannot unmarshal value into Go value of type main.CEPRequest")

/-- Store the members of a JSON object into a `ViaCEPResponse`, in order;
the field `Erro` receives the source text of its value, whatever it is. -/
def ViaCEPResponse.store :
    List (Bytes × Bytes × JsonValue) → ViaCEPResponse → Except GoError ViaCEPResponse
  | [], p => .ok p
  | (key, raw, v) :: ms, p =>
    if keyMatches (str "localidade") key then
      match storeString p.Localidade v with
      | .error e => .error e
      | .ok s => ViaCEPResponse.store ms { p with Localidade := s }
    else if keyMatches (str "erro") key then ViaCEPResponse.store ms { p with Erro := raw }
    else ViaCEPResponse.store ms p

/-- The call `json.Unmarshal(body, &viaCEPResp)` on a fresh `viaCEPResp`. -/
def ViaCEPResponse.Unmarshal (body : Bytes) : Except GoError ViaCEPResponse :=
  match unmarshalValue body with
  | .error e => .error e
  | .ok (.object ms) => ViaCEPResponse.store ms { Localidade := [], Erro := [] }
  | .ok .null => .ok { Localidade := [], Erro := [] }
  | .ok _ => .error (.other "json: cannot unmarshal value into Go value of type main.ViaCEPResponse")

/-- Store the members of a JSON object into the struct `Current`. -/
def WeatherCurrent.store :
    List (Bytes × Bytes × JsonValue) → WeatherCurrent → Except GoError WeatherCurrent
  | [], p => .ok p
  | (key, _, v) :: ms, p =>
    if keyMatches (str "temp_c") key then
      match storeFloat p.TempC v with
      | .error e => .error e
      | .ok f => WeatherCurrent.store ms { TempC := f }
    else WeatherCurrent.store ms p

/-- Store the members of a JSON object into a `WeatherResponse`. -/
def WeatherResponse.store :
    List (Bytes × Bytes × JsonValue) → WeatherResponse → Except GoError WeatherResponse
  | [], p => .ok p
  | (key, _, v) :: ms, p =>
    if keyMatches (str "current") key then
      match v with
      | .object cs =>
        match WeatherCurrent.store cs p.Current with
        | .error e => .error e
        | .ok c => WeatherResponse.store ms { Current := c }
      | .null => WeatherResponse.store ms p
      | _ => .error (.other "json: cannot unmarshal value into Go value of type struct")
    else WeatherResponse.store ms p

/-- The call `json.Unmarshal(body, &weatherResp)` on a fresh `weatherResp`. -/
def WeatherResponse.Unmarshal (body : Bytes) : Except GoError WeatherResponse :=
  match unmarshalValue body with
  | .error e => .error e
  | .ok (.object ms) => WeatherResponse.store ms { Current := { TempC := .finite false 0 0 } }
  | .ok .null => .ok { Current := { TempC := .finite false 0 0 } }
  | .ok _ => .error (.other "json: cannot unmarshal value into Go value of type main.WeatherResponse")

/-! ## Package `encoding/json`: writing -/

/-- Upper-case or lower-case hexadecimal digit of a value below 16. -/
def hexDigit (upper : Bool) (n : Nat) : UInt8 :=
  if n < 10 then UInt8.ofNat (0x30 + n)
  else if upper then UInt8.ofNat (0x41 + (n - 10)) else UInt8.ofNat (0x61 + (n - 10))

/-- The table `htmlSafeSet`: the ASCII bytes written as they are. -/
def htmlSafe (b : Nat) : Bool :=
  0x20 ≤ b && b < 0x80 && b ≠ 0x22 && b ≠ 0x5C && b ≠ 0x3C && b ≠ 0x3E && b ≠ 0x26

/-- The characters of a string as `appendString` writes them between the
quotes, with HTML escaping on (the default of `Marshal` and of `Encoder`).
Backspace and form feed are written `\b` and `\f` as Go 1.22 does (older
releases write `\u0008` and `\u000c`, which read back as the same bytes).
The first argument bounds the number of steps. -/
def escapeString : Nat → Bytes → Bytes
  | 0, _ => []
  | _ + 1, [] => []
  | fuel + 1, c :: cs =>
    let b := c.toNat
    if b < 0x80 then
      (if htmlSafe b then [c]
       else if b = 0x5C ∨ b = 0x22 then [0x5C, c]
       else if b = 0x08 then str "\\b"
       else if b = 0x0C then str "\\f"
       else if b = 0x0A then str "\\n"
       else if b = 0x0D then str "\\r"
       else if b = 0x09 then str "\\t"
       else str "\\u00" ++ [hexDigit false (b / 16), hexDigit false (b % 16)])
      ++ escapeString fuel cs
    else
      let rw := decodeRune (c :: cs)
      (if rw.1 = RuneError ∧ rw.2 = 1 then str "\\ufffd"
       else if rw.1 = 0x2028 ∨ rw.1 = 0x2029 then str "\\u202" ++ [hexDigit false (rw.1 % 16)]
       else (c :: cs).take rw.2)
      ++ escapeString fuel ((c :: cs).drop rw.2)

/-- A Go string as a JSON string literal (`appendString`). -/
def quoteString (s : Bytes) : Bytes :=
  [0x22] ++ escapeString (s.length + 1) s ++ [0x22]

/-- The call `json.Marshal(req)` for a `CEPRequest`; it has no way to fail. -/
def CEPRequest.Marshal (req : CEPRequest) : Except GoError Bytes :=
  .ok (str "\x7b\"cep\":" ++ quoteString req.CEP ++ str "\x7d")

/-- What `json.NewEncoder(w).Encode(map[string]string{"message": m})` writes:
the document and a newline. -/
def encodeMessage (m : Bytes) : Bytes :=
  str "\x7b\"message\":" ++ quoteString m ++ str "\x7d\n"

/-- Can `encoding/json` encode the value?  A `float64` that is an infinity or
a NaN is an `UnsupportedValueError`. -/
def Response.encodable (r : Response) : Bool :=
  r.TempC.isFinite && r.TempF.isFinite && r.TempK.isFinite

/-! ## Package `net/url` -/

/-- The function `url.QueryEscape`: letters, digits and `-_.~` stay, a space
becomes `+`, every other byte becomes `%XX`. -/
def QueryEscape : Bytes → Bytes
  | [] => []
  | c :: cs =>
    let b := c.toNat
    (if (0x61 ≤ b ∧ b ≤ 0x7A) ∨ (0x41 ≤ b ∧ b ≤ 0x5A) ∨ (0x30 ≤ b ∧ b ≤ 0x39)
        ∨ b = 0x2D ∨ b = 0x5F ∨ b = 0x2E ∨ b = 0x7E then [c]
     else if b = 0x20 then [0x2B]
     else [0x25, hexDigit true (b / 16), hexDigit true (b % 16)])
    ++ QueryEscape cs

/-! ## Package `net/http` and the tracer -/

/-- An HTTP header, as a list of keys with their value. -/
abbrev Header := List (Bytes × Bytes)

/-- The method `Header.Set`. -/
def Header.Set (h : Header) (key value : Bytes) : Header :=
  h.filter (fun kv => kv.1 ≠ key) ++ [(key, value)]

/-- The method `Header.Get` (empty when the key is absent). -/
def Header.Get (h : Header) (key : Bytes) : Bytes :=
  match h.find? (fun kv => kv.1 = key) with
  | some kv => kv.2
  | none => []

/-- The inbound request, as far as the handlers read it: its method and the
bytes that reading `r.Body` delivers. -/
structure Request where
  Method : Bytes
  Body : Bytes
  deriving DecidableEq, Repr

/-- One write to the response body: bytes, or the line in which
`json.Encoder` serialises a `Response` (the decimal text of a `float64` is
not modelled, so that line is kept as the value it encodes). -/
inductive Chunk where
  | bytes (b : Bytes)
  | json (r : Response)
  deriving DecidableEq, Repr

/-- The state of an `http.ResponseWriter` of the server: the header map, the
final status passed to `WriteHeader` (if one was written), what was written
to the body, the informational responses sent before the final one, and
whether a call on it panicked, which aborts the handler (the server then
closes the connection, and a client that was sent nothing receives no
response). -/
structure ResponseWriter where
  header : Header := []
  status : Option Nat := none
  body : List Chunk := []
  interim : List Nat := []
  panicked : Bool := false
  deriving DecidableEq, Repr

/-- The method `WriteHeader` of the server's `ResponseWriter`.  Once a final
status is written a further call changes nothing; otherwise a code outside
`100..999` panics (`checkWriteHeaderCode`), an informational code other than
`101` is sent at once as an interim response and leaves the final status
open, and any other code becomes the final status.  After a panic the handler
runs no more, so nothing changes. -/
def ResponseWriter.WriteHeader (w : ResponseWriter) (code : Nat) : ResponseWriter :=
  if w.panicked then w
  else if w.status.isSome then w
  else if code < 100 ∨ 999 < code then { w with panicked := true }
  else if 100 ≤ code ∧ code ≤ 199 ∧ code ≠ 101 then { w with interim := w.interim ++ [code] }
  else { w with status := some code }

/-- The status code the client receives: the one written, `200` when the
handler returns without having written one. -/
def ResponseWriter.StatusCode (w : ResponseWriter) : Nat := w.status.getD 200

/-- The function `bodyAllowedForStatus`: informational statuses, `204` and
`304` carry no body. -/
def bodyAllowedForStatus (status : Nat) : Bool :=
  !((100 ≤ status && status ≤ 199) || status = 204 || status = 304)

/-- The size of what a chunk puts on the wire is zero exactly for a write of
no bytes. -/
def Chunk.isEmpty : Chunk → Bool
  | .bytes b => b.isEmpty
  | .json _ => false

/-- The method `Write` of one chunk: it calls `WriteHeader(http.StatusOK)`
first when no status was written yet, then returns at once for a write of no
bytes, refuses the data (`ErrBodyNotAllowed`, an error the handlers drop) when
the status carries no body, and appends it otherwise. -/
def ResponseWriter.WriteChunk (w : ResponseWriter) (c : Chunk) : ResponseWriter :=
  if w.panicked then w
  else if c.isEmpty ∨ !bodyAllowedForStatus (w.WriteHeader 200).StatusCode then w.WriteHeader 200
  else { w.WriteHeader 200 with body := (w.WriteHeader 200).body ++ [c] }

/-- The method `Write`. -/
def ResponseWriter.Write (w : ResponseWriter) (b : Bytes) : ResponseWriter :=
  w.WriteChunk (.bytes b)

/-- The function `suppressedHeaders`: the entries of the header map that the
server withholds for a status. -/
def suppressedHeaders (status : Nat) : List Bytes :=
  if status = 304 then [str "Content-Type", str "Content-Length", str "Transfer-Encoding"]
  else if !bodyAllowedForStatus status then [str "Content-Length", str "Transfer-Encoding"]
  else []

/-- The entries of the handler's header map that the server sends with the
final status.  What the server adds on its own (`Date`, `Content-Length`, a
`Content-Type` it sniffs when the handler set none) is not represented. -/
def ResponseWriter.sentHeader (w : ResponseWriter) : Header :=
  w.header.filter (fun kv => !(suppressedHeaders w.StatusCode).contains kv.1)

/-- The bytes of a body written with `Write` alone; `none` when the encoder
of a `Response` wrote to it. -/
def bodyBytes : List Chunk → Option Bytes
  | [] => some []
  | .bytes b :: cs => (bodyBytes cs).map (fun rest => b ++ rest)
  | .json _ :: _ => none

/-- The function `http.Error`. -/
def Error (w : ResponseWriter) (error : Bytes) (code : Nat) : ResponseWriter :=
  let h := w.header.Set (str "Content-Type") (str "text/plain; charset=utf-8")
  let w1 : ResponseWriter := { w with header := h.Set (str "X-Content-Type-Options") (str "nosniff") }
  (w1.WriteHeader code).Write (error ++ str "\n")

/-- The call `json.NewEncoder(w).Encode(map[string]string{"message": m})`. -/
def EncodeMessage (w : ResponseWriter) (m : Bytes) : ResponseWriter :=
  w.Write (encodeMessage m)

/-- The call `json.NewEncoder(w).Encode(resp)` for a `Response`, whose result
the handler drops: the encoder writes the document, unless the value cannot
be encoded, in which case it returns its error before writing anything. -/
def EncodeResponse (w : ResponseWriter) (resp : Response) : ResponseWriter :=
  if resp.encodable then w.WriteChunk (.json resp) else w

/-- An outbound request handed to `client.Do`, with the TLS setting of the
client that sends it. -/
structure OutboundRequest where
  Method : Bytes
  URL : Bytes
  Header : Header
  Body : Bytes
  InsecureSkipVerify : Bool
  deriving DecidableEq, Repr

/-- The outcome of `client.Do` followed by `io.ReadAll(resp.Body)`: an error
of `Do` (transport failure, timeout, cancellation), or a response with its
status code and its body, `none` when reading the body fails. -/
inductive ClientResult where
  | failure
  | response (StatusCode : Nat) (Body : Option Bytes)
  deriving DecidableEq, Repr

/-- An effect of a handler. -/
inductive Event where
  | spanStart (tracer name : Bytes)
  | spanAttr (name key value : Bytes)
  | spanEnd (name : Bytes)
  | http (req : OutboundRequest)
  deriving DecidableEq, Repr

/-- The execution environment of a service. -/
structure Env where
  /-- The function `os.Getenv`; an unset variable reads as the empty string. -/
  Getenv : Bytes → Bytes
  /-- Whether `http.NewRequestWithContext` accepts the URL (`url.Parse` is not
  modelled). -/
  parseURL : Bytes → Bool
  /-- The answer of the network to an outbound request. -/
  transport : OutboundRequest → ClientResult
  /-- Whether the build of the program evaluates an expression `x*y + z` on
  `float64` as one fused operation (see `Float64.mulAdd`). -/
  fused : Bool := false

/-- The pattern `ctx, span := tracer.Start(ctx, name); span.SetAttributes(..);
defer span.End()`: the span is started, then the body runs, then the span is
ended, whatever the body returns. -/
def withSpan {α : Type} (tracer name : Bytes) (attrs : List (Bytes × Bytes))
    (body : α × List Event) : α × List Event :=
  (body.1, [Event.spanStart tracer name] ++ attrs.map (fun kv => Event.spanAttr name kv.1 kv.2)
    ++ body.2 ++ [Event.spanEnd name])

/-- The outbound HTTP calls of a trace, in order. -/
def outboundCalls : List Event → List OutboundRequest
  | [] => []
  | .http req :: es => req :: outboundCalls es
  | _ :: es => outboundCalls es

/-! ## serviceA (`src/serviceA/main.go`) -/

namespace ServiceA

/-- The handler `cepHandler` of `serviceA`.  The status of the downstream
response goes to `WriteHeader` as it is; when that call panics the handler
stops there, the later `Write` has no effect (`panicked`), and the deferred
`span.End()` calls still run. -/
def cepHandler (env : Env) (r : Request) : ResponseWriter × List Event :=
  withSpan (str "serviceA") (str "cepHandler") [] <|
    let w : ResponseWriter := {}
    if r.Method ≠ str "POST" then
      (Error w (str "Method not allowed") 405, [])
    else
      match CEPRequest.Decode r.Body with
      | .error _ => (Error w (str "invalid request body") 400, [])
      | .ok req =>
        if !cepRegex.MatchString req.CEP then
          (EncodeMessage (w.WriteHeader 422) (str "invalid zipcode"), [])
        else
          let serviceBURL :=
            if env.Getenv (str "SERVICE_B_URL") = [] then str "http://serviceb:8081/cep"
            else env.Getenv (str "SERVICE_B_URL")
          match CEPRequest.Marshal req with
          | .error _ => (Error w (str "internal error") 500, [])
          | .ok jsonData =>
            withSpan (str "serviceA") (str "forwardToServiceB") [(str "serviceB.url", serviceBURL)] <|
              if !env.parseURL serviceBURL then
                (Error w (str "internal error") 500, [])
              else
                let httpReq : OutboundRequest :=
                  { Method := str "POST", URL := serviceBURL,
                    Header := Header.Set [] (str "Content-Type") (str "application/json"),
                    Body := jsonData, InsecureSkipVerify := false }
                match env.transport httpReq with
                | .failure =>
                  (Error w (str "error calling service B") 500, [.http httpReq])
                | .response _ none =>
                  (Error w (str "error reading response from service B") 500, [.http httpReq])
                | .response StatusCode (some body) =>
                  let w1 : ResponseWriter :=
                    { w with header := w.header.Set (str "Content-Type") (str "application/json") }
                  ((w1.WriteHeader StatusCode).Write body, [.http httpReq])

end ServiceA

/-! ## serviceB (`src/serviceB/main.go`) -/

namespace ServiceB

/-- The function `getCityByCEP`. -/
def getCityByCEP (env : Env) (cep : Bytes) : Except GoError Bytes × List Event :=
  withSpan (str "serviceB") (str "getCityByCEP") [] <|
    let viaCEPURL := str "https://viacep.com.br/ws/" ++ cep ++ str "/json/"
    if !env.parseURL viaCEPURL then
      (.error (.other "net/http: invalid URL"), [])
    else
      let req : OutboundRequest :=
        { Method := str "GET", URL := viaCEPURL, Header := [], Body := [],
          InsecureSkipVerify := true }
      match env.transport req with
      | .failure => (.error (.other "client.Do failed"), [.http req])
      | .response StatusCode body =>
        if StatusCode ≠ 200 then (.error .ErrCEPNotFound, [.http req])
        else
          match body with
          | none => (.error (.other "io.ReadAll failed"), [.http req])
          | some body =>
            match ViaCEPResponse.Unmarshal body with
            | .error e => (.error e, [.http req])
            | .ok viaCEPResp =>
              if 0 < viaCEPResp.Erro.length ∨ viaCEPResp.Localidade = [] then
                (.error .ErrCEPNotFound, [.http req])
              else (.ok viaCEPResp.Localidade, [.http req])

/-- The function `getTemperature`. -/
def getTemperature (env : Env) (city : Bytes) : Except GoError Float64 × List Event :=
  let encodedCity := QueryEscape city
  withSpan (str "serviceB") (str "getTemperature") [(str "city", city)] <|
    let apiKey := env.Getenv (str "WEATHER_API_KEY")
    if apiKey = [] then
      (.error (.other "WEATHER_API_KEY not set"), [])
    else
      let weatherURL :=
        str "http://api.weatherapi.com/v1/current.json?key=" ++ apiKey ++ str "&q=" ++ encodedCity
      if !env.parseURL weatherURL then
        (.error (.other "net/http: invalid URL"), [])
      else
        let req : OutboundRequest :=
          { Method := str "GET", URL := weatherURL, Header := [], Body := [],
            InsecureSkipVerify := false }
        match env.transport req with
        | .failure => (.error (.other "client.Do failed"), [.http req])
        | .response StatusCode body =>
          if StatusCode ≠ 200 then
            (.error (.other "weather api returned status"), [.http req])
          else
            match body with
            | none => (.error (.other "io.ReadAll failed"), [.http req])
            | some body =>
              match WeatherResponse.Unmarshal body with
              | .error e => (.error e, [.http req])
              | .ok weatherResp => (.ok weatherResp.Current.TempC, [.http req])

/-- The handler `cepHandler` of `serviceB`.  The sums and the product are
those of `float64`; the expression `tempC*1.8 + 32` is evaluated as the build
does, the product and the sum rounded each on its own or fused into one
rounding (`Float64.mulAdd`). -/
def cepHandler (env : Env) (r : Request) : ResponseWriter × List Event :=
  withSpan (str "serviceB") (str "cepHandler") [] <|
    let w : ResponseWriter := {}
    if r.Method ≠ str "POST" then
      (Error w (str "Method not allowed") 405, [])
    else
      match CEPRequest.Decode r.Body with
      | .error _ => (Error w (str "invalid request body") 400, [])
      | .ok req =>
        match getCityByCEP env req.CEP with
        | (.error err, ev1) =>
          if err = .ErrInvalidCEP then
            (EncodeMessage (w.WriteHeader 422) (str "invalid zipcode"), ev1)
          else if err = .ErrCEPNotFound then
            (EncodeMessage (w.WriteHeader 404) (str "can not find zipcode"), ev1)
          else
            (Error w (str "internal error") 500, ev1)
        | (.ok city, ev1) =>
          match getTemperature env city with
          | (.error _, ev2) =>
            (Error w (str "error fetching temperature") 500, ev1 ++ ev2)
          | (.ok tempC, ev2) =>
            let resp : Response :=
              { City := city, TempC := tempC, TempF := Float64.mulAdd env.fused tempC 1.8 32,
                TempK := tempC + 273 }
            let w1 : ResponseWriter :=
              { w with header := w.header.Set (str "Content-Type") (str "application/json") }
            (EncodeResponse w1 resp, ev1 ++ ev2)

end ServiceB

/-! ## Sample requests and environments -/

/-- A POST request with the given body. -/
def post (body : String) : Request := { Method := str "POST", Body := str body }

/-- An environment given by its weather key and the answers of the remote
peers, selected by the first bytes of the URL; every URL is accepted. -/
def sampleEnv (key : String) (peers : List (String × ClientResult)) : Env :=
  { Getenv := fun name => if name = str "WEATHER_API_KEY" then str key else []
    parseURL := fun _ => true
    transport := fun req =>
      match peers.find? (fun p => (str p.1).isPrefixOf req.URL) with
      | some p => p.2
      | none => .failure }

/-- A JSON answer with status `code`. -/
def answer (code : Nat) (body : String) : ClientResult := .response code (some (str body))

/-! ## Auxiliary definitions of the proofs -/

/-- The bytes `s` start with `n` ASCII digits. -/
def startsWithDigits : Nat → Bytes → Bool
  | 0, _ => true
  | _ + 1, [] => false
  | n + 1, c :: cs => (0x30 ≤ c.toNat && c.toNat ≤ 0x39) && startsWithDigits n cs


/-- The URL to which `serviceA` forwards (lines 82 to 85 of its handler). -/
def ServiceA.serviceBURL (env : Env) : Bytes :=
  if env.Getenv (str "SERVICE_B_URL") = [] then str "http://serviceb:8081/cep"
  else env.Getenv (str "SERVICE_B_URL")

/-- The request that `serviceA` hands to `client.Do` for a decoded `req`. -/
def ServiceA.forwardRequest (env : Env) (req : CEPRequest) : OutboundRequest :=
  { Method := str "POST", URL := ServiceA.serviceBURL env,
    Header := [(str "Content-Type", str "application/json")],
    Body := str "\x7b\"cep\":" ++ quoteString req.CEP ++ str "\x7d", InsecureSkipVerify := false }

/-- The request that `getCityByCEP` hands to `client.Do`. -/
def ServiceB.directoryRequest (cep : Bytes) : OutboundRequest :=
  { Method := str "GET", URL := str "https://viacep.com.br/ws/" ++ cep ++ str "/json/",
    Header := [], Body := [], InsecureSkipVerify := true }

/-- The request that `getTemperature` hands to `client.Do`. -/
def ServiceB.weatherRequest (env : Env) (city : Bytes) : OutboundRequest :=
  { Method := str "GET",
    URL := str "http://api.weatherapi.com/v1/current.json?key=" ++ env.Getenv (str "WEATHER_API_KEY")
      ++ str "&q=" ++ QueryEscape city,
    Header := [], Body := [], InsecureSkipVerify := false }

/-- The span that marks an invocation of `getTemperature`. -/
def ServiceB.weatherSpan : Event := .spanStart (str "serviceB") (str "getTemperature")

/-- The value that the handler of `serviceB` composes from a city and a
temperature (lines 117 to 122). -/
def ServiceB.compose (env : Env) (city : Bytes) (tempC : Float64) : Response :=
  { City := city, TempC := tempC, TempF := Float64.mulAdd env.fused tempC 1.8 32,
    TempK := tempC + 273 }

/-- The bodies that the handler of `serviceB` writes on its failure paths. -/
def ServiceB.errorBodies : List Bytes :=
  [str "Method not allowed\n", str "invalid request body\n",
   str "\x7b\"message\":\"can not find zipcode\"\x7d\n", str "internal error\n",
   str "error fetching temperature\n"]

/-- The four stages of `serviceB` succeed on a request: it is a POST, its body
decodes, the directory resolver returns `city` and the weather fetcher returns
`tempC`. -/
def ServiceB.stagesSucceed (env : Env) (r : Request) (city : Bytes) (tempC : Float64) : Prop :=
  r.Method = str "POST" ∧
  ∃ req, CEPRequest.Decode r.Body = .ok req ∧
    (ServiceB.getCityByCEP env req.CEP).1 = .ok city ∧
    (ServiceB.getTemperature env city).1 = .ok tempC

/-- A directory API that knows São Paulo and a weather API that reports the
given temperature. -/
def saoPauloEnv (key tempC : String) : Env :=
  sampleEnv key
    [("https://viacep.com.br/ws/", answer 200 "\x7b\"cep\":\"01310-930\",\"localidade\":\"São Paulo\",\"uf\":\"SP\"\x7d"),
     ("http://api.weatherapi.com/v1/current.json?key=",
      answer 200 ("\x7b\"location\":\x7b\"name\":\"Sao Paulo\"\x7d,\"current\":\x7b\"temp_c\":" ++ tempC ++ "\x7d\x7d"))]

/-- A directory API that answers every lookup with the given status and body. -/
def directoryEnv (code : Nat) (body : String) : Env :=
  sampleEnv "key" [("https://viacep.com.br/ws/", answer code body)]

/-- A byte that a JSON string literal holds as it is, for the writer and for
the reader. -/
def plainByte (b : Nat) : Prop :=
  0x20 ≤ b ∧ b < 0x80 ∧ b ≠ 0x22 ∧ b ≠ 0x5C ∧ b ≠ 0x3C ∧ b ≠ 0x3E ∧ b ≠ 0x26


/-- The same environment on a build that fuses `x*y + z`. -/
def Env.withFused (env : Env) : Env := { env with fused := true }
/-! # Theorems -/

/-! ## Lemmas on the validator -/

theorem decodeRune_ascii (c : UInt8) (cs : Bytes) (h : c.toNat < 0x80) :
    decodeRune (c :: cs) = (c.toNat, 1) := by
  simp [decodeRune, h]

theorem decodeRune_width_pos (c : UInt8) (cs : Bytes) : 1 ≤ (decodeRune (c :: cs)).2 := by
  unfold decodeRune
  simp only
  repeat' split
  all_goals simp

theorem decodeRune_nonascii (c : UInt8) (cs : Bytes) (h : 0x80 ≤ c.toNat) :
    0x80 ≤ (decodeRune (c :: cs)).1 := by
  unfold decodeRune
  simp only
  repeat' split
  all_goals simp only [RuneError, acceptRange, isCont] at *
  all_goals first | omega | (repeat' split at *) <;> omega

/-- One step of `\d`: it consumes one byte, which must be an ASCII digit. -/
theorem perlDigit_step (p : Nat) (c : UInt8) (cs : Bytes) :
    perlDigit.step (p, c :: cs) =
      if 0x30 ≤ c.toNat ∧ c.toNat ≤ 0x39 then [(p + 1, cs)] else [] := by
  by_cases h : c.toNat < 0x80
  · simp [perlDigit, Regexp.step, decodeRune_ascii c cs h]
  · have h1 := decodeRune_nonascii c cs (by omega)
    have h2 : ¬ (0x30 ≤ c.toNat ∧ c.toNat ≤ 0x39) := by omega
    have h3 : ¬ (0x30 ≤ (decodeRune (c :: cs)).1 ∧ (decodeRune (c :: cs)).1 ≤ 0x39) := by omega
    simp only [perlDigit, Regexp.step, h2, h3, if_false]

theorem perlDigit_step_nil (p : Nat) : perlDigit.step (p, []) = [] := by
  simp [perlDigit, Regexp.step]

theorem iterate_flatMap_nil (r : Regexp) (n : Nat) :
    Nat.iterate (fun sts => List.flatMap sts (fun s => r.step s)) n [] = [] := by
  induction n with
  | zero => rfl
  | succ n ih => simpa [Function.iterate_succ] using ih

/-- Running `\d{n}`: it consumes exactly `n` leading digits. -/
theorem perlDigit_iterate (n : Nat) : ∀ (p : Nat) (s : Bytes),
    Nat.iterate (fun sts => List.flatMap sts (fun st => perlDigit.step st)) n [(p, s)] =
      if startsWithDigits n s then [(p + n, s.drop n)] else [] := by
  induction n with
  | zero => intro p s; simp [startsWithDigits]
  | succ n ih =>
    intro p s
    cases s with
    | nil =>
      simp only [Function.iterate_succ, Function.comp, List.flatMap_cons, List.flatMap_nil,
        perlDigit_step_nil, List.append_nil, startsWithDigits]
      simpa using iterate_flatMap_nil perlDigit n
    | cons c cs =>
      simp only [Function.iterate_succ, Function.comp, List.flatMap_cons, List.flatMap_nil,
        perlDigit_step, List.append_nil, startsWithDigits, List.drop_succ_cons]
      by_cases h : 0x30 ≤ c.toNat ∧ c.toNat ≤ 0x39
      · rw [if_pos h, ih]
        simp [h.1, h.2, Nat.add_assoc, Nat.add_comm 1 n]
      · rw [if_neg h, iterate_flatMap_nil]
        have : (decide (0x30 ≤ c.toNat) && decide (c.toNat ≤ 0x39)) = false := by
          simpa using h
        simp [this]

theorem startsWithDigits_iff (n : Nat) : ∀ s : Bytes,
    startsWithDigits n s = true ↔
      n ≤ s.length ∧ ∀ b ∈ s.take n, 0x30 ≤ b.toNat ∧ b.toNat ≤ 0x39 := by
  induction n with
  | zero => intro s; simp [startsWithDigits]
  | succ n ih =>
    intro s
    cases s with
    | nil => simp [startsWithDigits]
    | cons c cs => simp [startsWithDigits, ih, and_assoc, and_left_comm]

theorem cepRegex_unfold (st : MatchState) :
    cepRegex.step st =
      (if st.1 = 0 then [st] else []).flatMap (fun s1 =>
        (Nat.iterate (fun sts => List.flatMap sts (fun s => perlDigit.step s)) 8 [s1]).flatMap
          (fun s2 => if s2.2.isEmpty then [s2] else [])) := rfl

/-- The matches of `cepRegex` from a given state. -/
theorem cepRegex_step (p : Nat) (s : Bytes) :
    (cepRegex.step (p, s)).isEmpty = false ↔ p = 0 ∧ isEightDigits s := by
  unfold isEightDigits
  by_cases hp : p = 0
  · subst hp
    rw [cepRegex_unfold]
    simp only [if_true, List.flatMap_cons, List.flatMap_nil, List.append_nil]
    rw [perlDigit_iterate]
    by_cases hd : startsWithDigits 8 s = true
    · have hd2 := (startsWithDigits_iff 8 s).1 hd
      simp only [hd, if_true, List.flatMap_cons, List.flatMap_nil, List.append_nil, true_and]
      by_cases hl : s.length = 8
      · have ht : s.take 8 = s := by rw [← hl]; exact List.take_length s
        have hdr : s.drop 8 = [] := by rw [← hl]; exact List.drop_length s
        rw [ht] at hd2
        have hall := hd2.2
        simp [hdr, hl]
        exact hall
      · have hdr : (s.drop 8).isEmpty = false := by
          cases h : s.drop 8 with
          | nil =>
            have := List.drop_eq_nil_iff.1 h
            omega
          | cons a l => rfl
        simp [hdr, hl]
    · have hd3 : startsWithDigits 8 s = false := by simpa using hd
      simp only [hd3, List.flatMap_nil]
      constructor
      · intro h; simp at h
      · rintro ⟨-, hl, hall⟩
        exfalso
        apply hd
        rw [startsWithDigits_iff]
        refine ⟨by omega, fun b hb => hall b (List.mem_of_mem_take hb)⟩
  · rw [cepRegex_unfold]
    simp [hp]

/-- A match of `cepRegex` cannot start after the beginning of the text. -/
theorem cepRegex_search_pos (fuel : Nat) : ∀ (p : Nat) (s : Bytes), 0 < p →
    cepRegex.search fuel (p, s) = false := by
  induction fuel with
  | zero => intro p s _; rfl
  | succ fuel ih =>
    intro p s hp
    have h1 : (cepRegex.step (p, s)).isEmpty = true := by
      cases h : (cepRegex.step (p, s)).isEmpty with
      | true => rfl
      | false => exact absurd ((cepRegex_step p s).1 h).1 (by omega)
    cases s with
    | nil => simp [Regexp.search, h1]
    | cons c cs =>
      rw [Regexp.search]
      simp only [h1, Bool.not_true, Bool.false_eq_true, if_false]
      exact ih _ _ (by omega)

/-- The validator accepts exactly the strings of eight ASCII digits. -/
theorem cepRegex_MatchString_iff (s : Bytes) :
    cepRegex.MatchString s = true ↔ isEightDigits s := by
  unfold Regexp.MatchString
  cases h : (cepRegex.step (0, s)).isEmpty with
  | false =>
    have h2 := (cepRegex_step 0 s).1 h
    simp [Regexp.search, h, h2.2]
  | true =>
    have h2 : ¬ isEightDigits s := by
      intro hd
      have := (cepRegex_step 0 s).2 ⟨rfl, hd⟩
      rw [h] at this
      exact absurd this (by decide)
    cases s with
    | nil => simp [Regexp.search, h, h2]
    | cons c cs =>
      rw [Regexp.search]
      simp only [h, Bool.not_true, Bool.false_eq_true, if_false, h2, iff_false]
      rw [cepRegex_search_pos]
      · decide
      · have := decodeRune_width_pos c cs
        omega

/-! ## Lemmas on traces -/

theorem outboundCalls_append (a b : List Event) :
    outboundCalls (a ++ b) = outboundCalls a ++ outboundCalls b := by
  induction a with
  | nil => rfl
  | cons e es ih => cases e <;> simp [outboundCalls, ih]

theorem outboundCalls_attrs (name : Bytes) (attrs : List (Bytes × Bytes)) :
    outboundCalls (attrs.map (fun kv => Event.spanAttr name kv.1 kv.2)) = [] := by
  induction attrs with
  | nil => rfl
  | cons a as ih => simpa [outboundCalls] using ih

/-- A span adds no outbound call to the trace of its body. -/
theorem outboundCalls_withSpan {α : Type} (tracer name : Bytes) (attrs : List (Bytes × Bytes))
    (body : α × List Event) :
    outboundCalls (withSpan tracer name attrs body).2 = outboundCalls body.2 := by
  simp [withSpan, outboundCalls_append, outboundCalls_attrs, outboundCalls]

theorem withSpan_fst {α : Type} (tracer name : Bytes) (attrs : List (Bytes × Bytes))
    (body : α × List Event) : (withSpan tracer name attrs body).1 = body.1 := rfl

/-! ## serviceA: the paths of the handler -/

theorem serviceA_invalid (env : Env) (r : Request) (req : CEPRequest)
    (hm : r.Method = str "POST") (hd : CEPRequest.Decode r.Body = .ok req)
    (hv : cepRegex.MatchString req.CEP = false) :
    ServiceA.cepHandler env r =
      (EncodeMessage (ResponseWriter.WriteHeader {} 422) (str "invalid zipcode"),
       [.spanStart (str "serviceA") (str "cepHandler"), .spanEnd (str "cepHandler")]) := by
  unfold ServiceA.cepHandler
  simp [hm, hd, hv, withSpan]

/-- The handler of `serviceA` on a POST request whose code passes the
validator. -/
theorem serviceA_valid (env : Env) (r : Request) (req : CEPRequest)
    (hm : r.Method = str "POST") (hd : CEPRequest.Decode r.Body = .ok req)
    (hv : cepRegex.MatchString req.CEP = true) :
    ServiceA.cepHandler env r =
      withSpan (str "serviceA") (str "cepHandler") []
        (withSpan (str "serviceA") (str "forwardToServiceB")
          [(str "serviceB.url", ServiceA.serviceBURL env)]
          (if !env.parseURL (ServiceA.serviceBURL env) then
            (Error {} (str "internal error") 500, [])
          else
            match env.transport (ServiceA.forwardRequest env req) with
            | .failure =>
              (Error {} (str "error calling service B") 500,
                [.http (ServiceA.forwardRequest env req)])
            | .response _ none =>
              (Error {} (str "error reading response from service B") 500,
                [.http (ServiceA.forwardRequest env req)])
            | .response StatusCode (some body) =>
              ((ResponseWriter.WriteHeader
                  { header := [(str "Content-Type", str "application/json")] } StatusCode).Write body,
                [.http (ServiceA.forwardRequest env req)]))) := by
  unfold ServiceA.cepHandler
  simp only [hm, hd, hv, CEPRequest.Marshal, ne_eq, not_true_eq_false, if_false, Bool.not_true,
    Bool.false_eq_true]
  rfl

/-- The outbound calls of `serviceA` on a POST request whose code passes the
validator: the forwarded request, when its URL is accepted. -/
theorem serviceA_valid_calls (env : Env) (r : Request) (req : CEPRequest)
    (hm : r.Method = str "POST") (hd : CEPRequest.Decode r.Body = .ok req)
    (hv : cepRegex.MatchString req.CEP = true) :
    outboundCalls (ServiceA.cepHandler env r).2 =
      if env.parseURL (ServiceA.serviceBURL env) then [ServiceA.forwardRequest env req] else [] := by
  rw [serviceA_valid env r req hm hd hv, outboundCalls_withSpan, outboundCalls_withSpan]
  cases hp : env.parseURL (ServiceA.serviceBURL env) with
  | false => simp [outboundCalls]
  | true =>
    simp only [Bool.not_true, Bool.false_eq_true, if_false, if_true]
    cases env.transport (ServiceA.forwardRequest env req) with
    | failure => simp [outboundCalls]
    | response s b => cases b <;> simp [outboundCalls]

/-- The outbound calls of `serviceA` in general: none, or the forwarded
request of a decoded and validated code. -/
theorem serviceA_calls (env : Env) (r : Request) :
    outboundCalls (ServiceA.cepHandler env r).2 = [] ∨
    ∃ req, r.Method = str "POST" ∧ CEPRequest.Decode r.Body = .ok req ∧
      cepRegex.MatchString req.CEP = true ∧ env.parseURL (ServiceA.serviceBURL env) = true ∧
      outboundCalls (ServiceA.cepHandler env r).2 = [ServiceA.forwardRequest env req] := by
  by_cases hm : r.Method = str "POST"
  · cases hd : CEPRequest.Decode r.Body with
    | error e =>
      left
      unfold ServiceA.cepHandler
      simp [hm, hd, outboundCalls_withSpan, outboundCalls]
    | ok req =>
      cases hv : cepRegex.MatchString req.CEP with
      | false =>
        left
        rw [serviceA_invalid env r req hm hd hv]
        rfl
      | true =>
        have h := serviceA_valid_calls env r req hm hd hv
        cases hp : env.parseURL (ServiceA.serviceBURL env) with
        | false => left; simpa [hp] using h
        | true => right; exact ⟨req, hm, rfl, hv, rfl, by simpa [hp] using h⟩
  · left
    unfold ServiceA.cepHandler
    simp [hm, outboundCalls_withSpan, outboundCalls]

/-! ## The JSON round trip of a validated code -/

theorem escapeString_plain : ∀ (s : Bytes) (fuel : Nat),
    (∀ b ∈ s, plainByte b.toNat) → s.length < fuel → escapeString fuel s = s := by
  intro s
  induction s with
  | nil => intro fuel _ hf; cases fuel with
    | zero => rfl
    | succ n => rfl
  | cons c cs ih =>
    intro fuel hall hf
    cases fuel with
    | zero => simp at hf
    | succ n =>
      have hc := hall c (List.mem_cons_self _ _)
      unfold plainByte at hc
      have h1 : c.toNat < 0x80 := by omega
      have h2 : htmlSafe c.toNat = true := by
        simp [htmlSafe]; omega
      rw [escapeString]
      simp only [h1, if_true, h2]
      rw [ih n (fun b hb => hall b (List.mem_cons_of_mem _ hb)) (by simpa using hf)]
      rfl

theorem parseString_plain : ∀ (s acc rest : Bytes) (fuel : Nat),
    (∀ b ∈ s, plainByte b.toNat) → s.length < fuel →
    parseString fuel acc (s ++ 0x22 :: rest) = some (acc ++ s, rest) := by
  intro s
  induction s with
  | nil =>
    intro acc rest fuel _ hf
    cases fuel with
    | zero => simp at hf
    | succ n => simp [parseString]
  | cons c cs ih =>
    intro acc rest fuel hall hf
    cases fuel with
    | zero => simp at hf
    | succ n =>
      have hc := hall c (List.mem_cons_self _ _)
      unfold plainByte at hc
      have h1 : ¬ c.toNat = 0x22 := by omega
      have h2 : ¬ c.toNat = 0x5C := by omega
      have h3 : ¬ c.toNat < 0x20 := by omega
      have h4 : c.toNat < 0x80 := by omega
      simp only [List.cons_append, parseString, h1, h2, h3, h4, if_true, if_false]
      show parseString n (acc ++ [c]) (cs ++ 0x22 :: rest) = _
      rw [ih _ _ n (fun b hb => hall b (List.mem_cons_of_mem _ hb)) (by simpa using hf)]
      simp

theorem plainByte_of_digit (b : Nat) (h : 0x30 ≤ b ∧ b ≤ 0x39) : plainByte b := by
  unfold plainByte; omega

/-- Reading a string literal of plain bytes as a value. -/
theorem parseValue_string (s rest : Bytes) (fuel depth : Nat)
    (hs : ∀ b ∈ s, plainByte b.toNat) :
    parseValue (fuel + 1) depth (0x22 :: (s ++ 0x22 :: rest)) = some (.string s, rest) := by
  have hq : skipWS (0x22 :: (s ++ 0x22 :: rest)) = 0x22 :: (s ++ 0x22 :: rest) := by
    simp [skipWS, isSpace, UInt8.size]
  rw [parseValue]
  simp only [hq]
  rw [parseString_plain s [] rest _ hs (by simp; omega)]
  simp [UInt8.size]

/-- Reading the members `"cep":"<s>"` followed by the closing brace. -/
theorem parseMembers_cep (s rest : Bytes) (fuel depth : Nat)
    (hs : ∀ b ∈ s, plainByte b.toNat) :
    ∃ raw, parseMembers (fuel + 2) depth
        (0x22 :: 0x63 :: 0x65 :: 0x70 :: 0x22 :: 0x3A :: 0x22 :: (s ++ 0x22 :: 0x7D :: rest)) =
      some ([(str "cep", raw, .string s)], rest) := by
  have hkey : ∀ b ∈ ([0x63, 0x65, 0x70] : Bytes), plainByte b.toNat := by
    intro b hb
    simp at hb
    rcases hb with rfl | rfl | rfl <;> simp [plainByte, UInt8.size]
  have hk := parseString_plain [0x63, 0x65, 0x70] [] (0x3A :: 0x22 :: (s ++ 0x22 :: 0x7D :: rest))
    ((0x63 :: 0x65 :: 0x70 :: 0x22 :: 0x3A :: 0x22 :: (s ++ 0x22 :: 0x7D :: rest)).length + 1) hkey
    (by simp)
  simp only [List.cons_append, List.nil_append] at hk
  rw [parseMembers]
  simp only [hk]
  simp [skipWS, isSpace, UInt8.size, parseValue_string _ _ _ _ hs]
  decide

theorem quoteString_plain (s : Bytes) (hs : ∀ b ∈ s, plainByte b.toNat) :
    quoteString s = 0x22 :: (s ++ [0x22]) := by
  simp [quoteString, escapeString_plain s _ hs (Nat.lt_succ_self _)]

/-- Decoding what `Marshal` writes for a code of plain bytes gives the code
back. -/
theorem CEPRequest_roundtrip (s : Bytes) (hs : ∀ b ∈ s, plainByte b.toNat) :
    CEPRequest.Decode (str "\x7b\"cep\":" ++ quoteString s ++ str "\x7d") = .ok { CEP := s } := by
  have e1 : str "\x7b\"cep\":" = [0x7B, 0x22, 0x63, 0x65, 0x70, 0x22, 0x3A] := by decide
  have e2 : str "\x7d" = [0x7D] := by decide
  rw [quoteString_plain s hs, e1, e2]
  obtain ⟨raw, hraw⟩ := parseMembers_cep s [] (2 * s.length + 19) 1 hs
  have hlen : 2 * ([0x7B, 0x22, 0x63, 0x65, 0x70, 0x22, 0x3A] ++ (0x22 : UInt8) :: (s ++ [0x22])
      ++ [0x7D]).length + 2 = (2 * s.length + 19 + 2) + 1 := by
    simp; omega
  unfold CEPRequest.Decode decodeValue
  rw [hlen, parseValue]
  simp only [List.cons_append, List.nil_append, List.append_assoc]
  have hkey : keyMatches (str "cep") (str "cep") = true := by decide
  simp [skipWS, isSpace, UInt8.size, maxNestingDepth, hraw, CEPRequest.store, storeString, hkey]

/-! ## serviceB: the directory resolver and the weather fetcher -/

theorem storeString_error (old : Bytes) (v : JsonValue) (e : GoError)
    (h : storeString old v = .error e) : ∃ msg, e = .other msg := by
  cases v <;> simp [storeString] at h <;> exact ⟨_, h.symm⟩

theorem ViaCEPResponse_store_error : ∀ (ms : List (Bytes × Bytes × JsonValue))
    (p : ViaCEPResponse) (e : GoError),
    ViaCEPResponse.store ms p = .error e → ∃ msg, e = .other msg := by
  intro ms
  induction ms with
  | nil => intro p e h; simp [ViaCEPResponse.store] at h
  | cons m ms ih =>
    intro p e h
    obtain ⟨key, raw, v⟩ := m
    simp only [ViaCEPResponse.store] at h
    split at h
    · cases hs : storeString p.Localidade v with
      | error e1 =>
        rw [hs] at h
        simp at h
        subst h
        exact storeString_error _ _ _ hs
      | ok s =>
        rw [hs] at h
        exact ih _ _ h
    · split at h
      · exact ih _ _ h
      · exact ih _ _ h

theorem unmarshalValue_error (b : Bytes) (e : GoError) (h : unmarshalValue b = .error e) :
    ∃ msg, e = .other msg := by
  unfold unmarshalValue at h
  split at h
  · simp at h; exact ⟨_, h.symm⟩
  · split at h
    · simp at h
    · simp at h; exact ⟨_, h.symm⟩

/-- An error of `json.Unmarshal` is none of the two sentinels. -/
theorem ViaCEPResponse_Unmarshal_error (b : Bytes) (e : GoError)
    (h : ViaCEPResponse.Unmarshal b = .error e) : ∃ msg, e = .other msg := by
  unfold ViaCEPResponse.Unmarshal at h
  split at h
  · next e1 he =>
    simp at h
    subst h
    exact unmarshalValue_error _ _ he
  · exact ViaCEPResponse_store_error _ _ _ h
  · simp at h
  · simp at h; exact ⟨_, h.symm⟩

/-- The function `getCityByCEP` never returns `ErrInvalidCEP`. -/
theorem getCityByCEP_ne_ErrInvalidCEP (env : Env) (cep : Bytes) :
    (ServiceB.getCityByCEP env cep).1 ≠ .error .ErrInvalidCEP := by
  unfold ServiceB.getCityByCEP
  rw [withSpan_fst]
  dsimp only
  split
  · simp
  · split
    · simp
    · split
      · simp
      · split
        · simp
        · split
          · next e he =>
            obtain ⟨msg, hmsg⟩ := ViaCEPResponse_Unmarshal_error _ _ he
            simp [hmsg]
          · split <;> simp

/-- The trace of `getCityByCEP`: its span, around at most the one call to the
directory API. -/
theorem getCityByCEP_trace (env : Env) (cep : Bytes) :
    (ServiceB.getCityByCEP env cep).2 =
        [.spanStart (str "serviceB") (str "getCityByCEP"), .spanEnd (str "getCityByCEP")] ∨
    (ServiceB.getCityByCEP env cep).2 =
        [.spanStart (str "serviceB") (str "getCityByCEP"), .http (ServiceB.directoryRequest cep),
         .spanEnd (str "getCityByCEP")] := by
  unfold ServiceB.getCityByCEP ServiceB.directoryRequest
  simp only [withSpan, List.map_nil, List.append_nil]
  split
  · left; rfl
  · right
    split
    · rfl
    · split
      · rfl
      · split
        · rfl
        · split
          · rfl
          · split <;> rfl

/-- The trace of `getTemperature`: its span and attribute, around at most the
one call to the weather API. -/
theorem getTemperature_trace (env : Env) (city : Bytes) :
    (ServiceB.getTemperature env city).2 =
        [ServiceB.weatherSpan, .spanAttr (str "getTemperature") (str "city") city,
         .spanEnd (str "getTemperature")] ∨
    (ServiceB.getTemperature env city).2 =
        [ServiceB.weatherSpan, .spanAttr (str "getTemperature") (str "city") city,
         .http (ServiceB.weatherRequest env city), .spanEnd (str "getTemperature")] := by
  unfold ServiceB.getTemperature ServiceB.weatherRequest ServiceB.weatherSpan
  simp only [withSpan, List.map_cons, List.map_nil]
  split
  · left; rfl
  · split
    · left; rfl
    · right
      split
      · rfl
      · split
        · rfl
        · split
          · rfl
          · split <;> rfl

/-- An invocation of `getTemperature` always leaves its span in the trace. -/
theorem getTemperature_span (env : Env) (city : Bytes) :
    ServiceB.weatherSpan ∈ (ServiceB.getTemperature env city).2 := by
  rcases getTemperature_trace env city with h | h <;> rw [h] <;> simp

/-- The directory resolver never starts the span of the weather fetcher. -/
theorem getCityByCEP_no_weatherSpan (env : Env) (cep : Bytes) :
    ServiceB.weatherSpan ∉ (ServiceB.getCityByCEP env cep).2 := by
  have h1 : ServiceB.weatherSpan ≠ .spanStart (str "serviceB") (str "getCityByCEP") := by decide
  have h2 : ServiceB.weatherSpan ≠ .spanEnd (str "getCityByCEP") := by decide
  have h3 : ServiceB.weatherSpan ≠ .http (ServiceB.directoryRequest cep) := by
    simp [ServiceB.weatherSpan]
  rcases getCityByCEP_trace env cep with h | h <;> rw [h] <;> simp [h1, h2, h3]

/-! ## serviceB: the paths of the handler -/

theorem serviceB_directory_error (env : Env) (r : Request) (req : CEPRequest) (err : GoError)
    (ev1 : List Event)
    (hm : r.Method = str "POST") (hd : CEPRequest.Decode r.Body = .ok req)
    (hc : ServiceB.getCityByCEP env req.CEP = (.error err, ev1)) :
    ServiceB.cepHandler env r =
      withSpan (str "serviceB") (str "cepHandler") []
        (if err = .ErrInvalidCEP then
          (EncodeMessage (ResponseWriter.WriteHeader {} 422) (str "invalid zipcode"), ev1)
        else if err = .ErrCEPNotFound then
          (EncodeMessage (ResponseWriter.WriteHeader {} 404) (str "can not find zipcode"), ev1)
        else (Error {} (str "internal error") 500, ev1)) := by
  unfold ServiceB.cepHandler
  simp only [hm, hd, hc, ne_eq, not_true_eq_false, if_false]

theorem serviceB_weather_error (env : Env) (r : Request) (req : CEPRequest) (city : Bytes)
    (err : GoError) (ev1 ev2 : List Event)
    (hm : r.Method = str "POST") (hd : CEPRequest.Decode r.Body = .ok req)
    (hc : ServiceB.getCityByCEP env req.CEP = (.ok city, ev1))
    (ht : ServiceB.getTemperature env city = (.error err, ev2)) :
    ServiceB.cepHandler env r =
      withSpan (str "serviceB") (str "cepHandler") []
        (Error {} (str "error fetching temperature") 500, ev1 ++ ev2) := by
  unfold ServiceB.cepHandler
  simp only [hm, hd, hc, ht, ne_eq, not_true_eq_false, if_false]

theorem serviceB_composed (env : Env) (r : Request) (req : CEPRequest) (city : Bytes)
    (tempC : Float64) (ev1 ev2 : List Event)
    (hm : r.Method = str "POST") (hd : CEPRequest.Decode r.Body = .ok req)
    (hc : ServiceB.getCityByCEP env req.CEP = (.ok city, ev1))
    (ht : ServiceB.getTemperature env city = (.ok tempC, ev2)) :
    ServiceB.cepHandler env r =
      withSpan (str "serviceB") (str "cepHandler") []
        (EncodeResponse { header := [(str "Content-Type", str "application/json")] }
          { City := city, TempC := tempC, TempF := Float64.mulAdd env.fused tempC 1.8 32,
            TempK := tempC + 273 },
         ev1 ++ ev2) := by
  unfold ServiceB.cepHandler
  simp only [hm, hd, hc, ht, ne_eq, not_true_eq_false, if_false]
  rfl

/-! ## Status codes and bodies of the responses -/

/-- A code that `WriteHeader` records as the final status. -/
theorem WriteHeader_final (h : Header) (code : Nat) (hc : code = 101 ∨ (200 ≤ code ∧ code ≤ 999)) :
    ResponseWriter.WriteHeader { header := h } code = { header := h, status := some code } := by
  have e1 : ¬ (code < 100 ∨ 999 < code) := by omega
  have e2 : ¬ (100 ≤ code ∧ code ≤ 199 ∧ code ≠ 101) := by omega
  simp [ResponseWriter.WriteHeader, e1, e2]

theorem WriteChunk_final (h : Header) (code : Nat) (c : Chunk) :
    ResponseWriter.WriteChunk { header := h, status := some code } c =
      { header := h, status := some code,
        body := if c.isEmpty = true ∨ bodyAllowedForStatus code = false then [] else [c] } := by
  simp only [ResponseWriter.WriteChunk, ResponseWriter.WriteHeader, ResponseWriter.StatusCode]
  simp
  split <;> simp_all

theorem WriteChunk_fresh (h : Header) (c : Chunk) :
    ResponseWriter.WriteChunk { header := h } c =
      { header := h, status := some 200, body := if c.isEmpty = true then [] else [c] } := by
  simp only [ResponseWriter.WriteChunk, ResponseWriter.WriteHeader, ResponseWriter.StatusCode]
  simp [bodyAllowedForStatus]
  split <;> simp_all

theorem line_isEmpty (msg : Bytes) : Chunk.isEmpty (.bytes (msg ++ str "\n")) = false := by
  have h : str "\n" = [10] := by decide
  simp [Chunk.isEmpty, h]

theorem encodeMessage_isEmpty (m : Bytes) : Chunk.isEmpty (.bytes (encodeMessage m)) = false := by
  have h : str "\x7d\n" = [0x7d, 10] := by decide
  simp [Chunk.isEmpty, encodeMessage, h]

theorem Error_eq (msg : Bytes) (code : Nat) (h1 : 200 ≤ code) (h2 : code ≤ 999)
    (h3 : bodyAllowedForStatus code = true) :
    Error {} msg code =
      { header := Header.Set (Header.Set [] (str "Content-Type") (str "text/plain; charset=utf-8"))
          (str "X-Content-Type-Options") (str "nosniff"),
        status := some code, body := [.bytes (msg ++ str "\n")] } := by
  unfold Error ResponseWriter.Write
  simp only []
  rw [WriteHeader_final _ _ (Or.inr ⟨h1, h2⟩), WriteChunk_final, line_isEmpty, h3]
  simp

theorem Error_StatusCode (msg : Bytes) (code : Nat) (h : code ∈ [400, 404, 405, 422, 500]) :
    (Error {} msg code).StatusCode = code := by
  have h' : 200 ≤ code ∧ code ≤ 999 ∧ bodyAllowedForStatus code = true := by
    simp only [List.mem_cons, List.mem_singleton, List.not_mem_nil, or_false] at h
    rcases h with rfl | rfl | rfl | rfl | rfl <;> decide
  rw [Error_eq msg code h'.1 h'.2.1 h'.2.2]
  rfl

theorem Error_body (msg : Bytes) (code : Nat) (h : code ∈ [400, 404, 405, 422, 500]) :
    (Error {} msg code).body = [.bytes (msg ++ str "\n")] := by
  have h' : 200 ≤ code ∧ code ≤ 999 ∧ bodyAllowedForStatus code = true := by
    simp only [List.mem_cons, List.mem_singleton, List.not_mem_nil, or_false] at h
    rcases h with rfl | rfl | rfl | rfl | rfl <;> decide
  rw [Error_eq msg code h'.1 h'.2.1 h'.2.2]

theorem EncodeMessage_eq (code : Nat) (m : Bytes) (h : code ∈ [400, 404, 405, 422, 500]) :
    EncodeMessage (ResponseWriter.WriteHeader {} code) m =
      { status := some code, body := [.bytes (encodeMessage m)] } := by
  have h' : 200 ≤ code ∧ code ≤ 999 ∧ bodyAllowedForStatus code = true := by
    simp only [List.mem_cons, List.mem_singleton, List.not_mem_nil, or_false] at h
    rcases h with rfl | rfl | rfl | rfl | rfl <;> decide
  unfold EncodeMessage ResponseWriter.Write
  rw [WriteHeader_final _ _ (Or.inr ⟨h'.1, h'.2.1⟩), WriteChunk_final, encodeMessage_isEmpty, h'.2.2]
  simp

theorem EncodeMessage_StatusCode (code : Nat) (m : Bytes) (h : code ∈ [400, 404, 405, 422, 500]) :
    (EncodeMessage (ResponseWriter.WriteHeader {} code) m).StatusCode = code := by
  rw [EncodeMessage_eq code m h]
  rfl

theorem EncodeMessage_body (code : Nat) (m : Bytes) (h : code ∈ [400, 404, 405, 422, 500]) :
    (EncodeMessage (ResponseWriter.WriteHeader {} code) m).body = [.bytes (encodeMessage m)] := by
  rw [EncodeMessage_eq code m h]

theorem EncodeResponse_eq (h : Header) (resp : Response) :
    EncodeResponse { header := h } resp =
      if resp.encodable then { header := h, status := some 200, body := [.json resp] }
      else { header := h } := by
  unfold EncodeResponse
  rw [WriteChunk_fresh]
  rfl

theorem EncodeResponse_StatusCode (h : Header) (resp : Response) :
    (EncodeResponse { header := h } resp).StatusCode = 200 := by
  rw [EncodeResponse_eq]
  split <;> rfl

theorem EncodeResponse_body (h : Header) (resp : Response) :
    (EncodeResponse { header := h } resp).body = if resp.encodable then [.json resp] else [] := by
  rw [EncodeResponse_eq]
  split <;> rfl

/-! ## The claims -/

/-- C1.  The validator of `serviceA`, `cepRegex.MatchString` with the pattern
`^\d{8}$`, accepts a string if and only if it consists of exactly eight bytes,
each an ASCII digit `0` to `9`.  In particular it rejects the empty string,
strings of another length, strings with a dash, a letter, white space around
the code, a trailing newline, or digits outside ASCII; nothing is trimmed or
removed before matching. -/
theorem cepRegex_accepts_exactly_eight_digits :
    (∀ s : Bytes, cepRegex.MatchString s = true ↔ isEightDigits s) ∧
    cepRegex.MatchString (str "01310930") = true ∧
    cepRegex.MatchString (str "") = false ∧
    cepRegex.MatchString (str "123") = false ∧
    cepRegex.MatchString (str "1234567") = false ∧
    cepRegex.MatchString (str "123456789") = false ∧
    cepRegex.MatchString (str "01310-930") = false ∧
    cepRegex.MatchString (str "0131093a") = false ∧
    cepRegex.MatchString (str " 01310930") = false ∧
    cepRegex.MatchString (str "01310930 ") = false ∧
    cepRegex.MatchString (str "01310930\n") = false ∧
    cepRegex.MatchString (str "٠١٣١٠٩٣٠") = false := by
  refine ⟨cepRegex_MatchString_iff, ?_, ?_, ?_, ?_, ?_, ?_, ?_, ?_, ?_, ?_, ?_⟩ <;> decide

/-- C2.  For every POST request to `serviceA` whose body decodes to a code
that fails the validator, the handler answers with status 422, writes the
JSON document `{"message":"invalid zipcode"}` (as the line the encoder emits)
and issues no outbound call. -/
theorem serviceA_rejects_invalid_code (env : Env) (r : Request) (req : CEPRequest)
    (hm : r.Method = str "POST") (hd : CEPRequest.Decode r.Body = .ok req)
    (hv : cepRegex.MatchString req.CEP = false) :
    (ServiceA.cepHandler env r).1.StatusCode = 422 ∧
    (ServiceA.cepHandler env r).1.body =
      [.bytes (str "\x7b\"message\":\"invalid zipcode\"\x7d\n")] ∧
    outboundCalls (ServiceA.cepHandler env r).2 = [] := by
  rw [serviceA_invalid env r req hm hd hv]
  refine ⟨rfl, ?_, rfl⟩
  rw [EncodeMessage_body _ _ (by decide)]
  decide

/-- Witness of C2: the code `123`, with a downstream service that would
answer. -/
theorem serviceA_rejects_invalid_code_witness :
    CEPRequest.Decode (post "\x7b\"cep\":\"123\"\x7d").Body = .ok { CEP := str "123" } ∧
    (ServiceA.cepHandler (sampleEnv "" [("http://serviceb:8081/cep", answer 200 "ok")])
        (post "\x7b\"cep\":\"123\"\x7d")).1.StatusCode = 422 ∧
    (ServiceA.cepHandler (sampleEnv "" [("http://serviceb:8081/cep", answer 200 "ok")])
        (post "\x7b\"cep\":\"123\"\x7d")).1.body =
      [.bytes (str "\x7b\"message\":\"invalid zipcode\"\x7d\n")] ∧
    outboundCalls (ServiceA.cepHandler (sampleEnv "" [("http://serviceb:8081/cep", answer 200 "ok")])
        (post "\x7b\"cep\":\"123\"\x7d")).2 = [] :=
  ⟨by decide,
   serviceA_rejects_invalid_code (sampleEnv "" [("http://serviceb:8081/cep", answer 200 "ok")])
     (post "\x7b\"cep\":\"123\"\x7d") { CEP := str "123" } (by decide) (by decide) (by decide)⟩

/-- C4 as stated fails.  The handler of `serviceA` passes the downstream
status to `WriteHeader` unchecked.  When the downstream call is answered with
status 99 and a body, which `client.Do` delivers, `WriteHeader(99)` panics:
the handler writes no status and no body, so the client is not answered with
status 99 and that body.  When the downstream call is answered with 304 (and
no body), the response has status 304 but the server withholds the
`Content-Type` that the handler set. -/
theorem serviceA_relay_fails_on_99 :
    (post "\x7b\"cep\":\"01310930\"\x7d").Method = str "POST" ∧
    CEPRequest.Decode (post "\x7b\"cep\":\"01310930\"\x7d").Body = .ok { CEP := str "01310930" } ∧
    cepRegex.MatchString (str "01310930") = true ∧
    outboundCalls (ServiceA.cepHandler (sampleEnv "" [("http://serviceb:8081/cep", answer 99 "x")])
        (post "\x7b\"cep\":\"01310930\"\x7d")).2 =
      [ServiceA.forwardRequest (sampleEnv "" [("http://serviceb:8081/cep", answer 99 "x")])
        { CEP := str "01310930" }] ∧
    (sampleEnv "" [("http://serviceb:8081/cep", answer 99 "x")]).transport
        (ServiceA.forwardRequest (sampleEnv "" [("http://serviceb:8081/cep", answer 99 "x")])
          { CEP := str "01310930" }) = .response 99 (some (str "x")) ∧
    (ServiceA.cepHandler (sampleEnv "" [("http://serviceb:8081/cep", answer 99 "x")])
        (post "\x7b\"cep\":\"01310930\"\x7d")).1.panicked = true ∧
    (ServiceA.cepHandler (sampleEnv "" [("http://serviceb:8081/cep", answer 99 "x")])
        (post "\x7b\"cep\":\"01310930\"\x7d")).1.status = none ∧
    (ServiceA.cepHandler (sampleEnv "" [("http://serviceb:8081/cep", answer 99 "x")])
        (post "\x7b\"cep\":\"01310930\"\x7d")).1.body = [] ∧
    (sampleEnv "" [("http://serviceb:8081/cep", answer 304 "")]).transport
        (ServiceA.forwardRequest (sampleEnv "" [("http://serviceb:8081/cep", answer 304 "")])
          { CEP := str "01310930" }) = .response 304 (some []) ∧
    (ServiceA.cepHandler (sampleEnv "" [("http://serviceb:8081/cep", answer 304 "")])
        (post "\x7b\"cep\":\"01310930\"\x7d")).1.StatusCode = 304 ∧
    (ServiceA.cepHandler (sampleEnv "" [("http://serviceb:8081/cep", answer 304 "")])
        (post "\x7b\"cep\":\"01310930\"\x7d")).1.sentHeader = [] := by
  refine ⟨by decide, by decide, by decide, by decide, by decide, by decide, by decide, by decide,
    by decide, by decide, by decide⟩

/-- C4 as amended.  For every POST request to `serviceA` with a valid code, if
the downstream call the handler issues is answered with status `s` and a body
`b` that is read in full, and `s` is 101 or lies between 200 and 999, then the
handler does not panic and its response has status exactly `s`; the body is
`b`, byte for byte, when `s` allows a body, and empty when it does not (101,
204 and 304); the response carries `Content-Type: application/json` unless
`s` is 304, for which the server sends none of the handler's header entries. -/
theorem serviceA_relays_downstream (env : Env) (r : Request) (req : CEPRequest)
    (q : OutboundRequest) (s : Nat) (b : Bytes)
    (hm : r.Method = str "POST") (hd : CEPRequest.Decode r.Body = .ok req)
    (hv : cepRegex.MatchString req.CEP = true)
    (hq : outboundCalls (ServiceA.cepHandler env r).2 = [q])
    (ha : env.transport q = .response s (some b))
    (hs : s = 101 ∨ (200 ≤ s ∧ s ≤ 999)) :
    (ServiceA.cepHandler env r).1.panicked = false ∧
    (ServiceA.cepHandler env r).1.interim = [] ∧
    (ServiceA.cepHandler env r).1.StatusCode = s ∧
    bodyBytes (ServiceA.cepHandler env r).1.body =
      some (if bodyAllowedForStatus s then b else []) ∧
    (s ≠ 304 →
      (ServiceA.cepHandler env r).1.sentHeader.Get (str "Content-Type") = str "application/json") ∧
    (s = 304 → (ServiceA.cepHandler env r).1.sentHeader = []) := by
  have hc := serviceA_valid_calls env r req hm hd hv
  rw [hq] at hc
  cases hp : env.parseURL (ServiceA.serviceBURL env) with
  | false => simp [hp] at hc
  | true =>
    simp only [hp, if_true, List.cons.injEq, and_true] at hc
    subst hc
    rw [serviceA_valid env r req hm hd hv]
    simp only [withSpan_fst, hp, Bool.not_true, Bool.false_eq_true, if_false, ha]
    unfold ResponseWriter.Write
    rw [WriteHeader_final _ _ hs, WriteChunk_final]
    refine ⟨rfl, rfl, rfl, ?_, ?_, ?_⟩
    · cases hb : bodyAllowedForStatus s with
      | false => simp [bodyBytes]
      | true =>
        cases b with
        | nil => simp [bodyBytes, Chunk.isEmpty]
        | cons c cs => simp [bodyBytes, Chunk.isEmpty]
    · intro h304
      have hsup : (suppressedHeaders s).contains (str "Content-Type") = false := by
        unfold suppressedHeaders
        rw [if_neg h304]
        split <;> decide
      simp only [ResponseWriter.sentHeader, ResponseWriter.StatusCode, Option.getD_some,
        List.filter_cons, hsup, Bool.not_false, if_true, List.filter_nil]
      decide
    · intro h304
      subst h304
      simp only [ResponseWriter.sentHeader, ResponseWriter.StatusCode, Option.getD_some]
      decide

/-- Witness of C4 as amended: the downstream service answers 404 with a JSON
body. -/
theorem serviceA_relays_downstream_witness :
    (ServiceA.cepHandler
        (sampleEnv "" [("http://serviceb:8081/cep",
          answer 404 "\x7b\"message\":\"can not find zipcode\"\x7d\n")])
        (post "\x7b\"cep\":\"00000000\"\x7d")).1.panicked = false ∧
    (ServiceA.cepHandler
        (sampleEnv "" [("http://serviceb:8081/cep",
          answer 404 "\x7b\"message\":\"can not find zipcode\"\x7d\n")])
        (post "\x7b\"cep\":\"00000000\"\x7d")).1.interim = [] ∧
    (ServiceA.cepHandler
        (sampleEnv "" [("http://serviceb:8081/cep",
          answer 404 "\x7b\"message\":\"can not find zipcode\"\x7d\n")])
        (post "\x7b\"cep\":\"00000000\"\x7d")).1.StatusCode = 404 ∧
    bodyBytes (ServiceA.cepHandler
        (sampleEnv "" [("http://serviceb:8081/cep",
          answer 404 "\x7b\"message\":\"can not find zipcode\"\x7d\n")])
        (post "\x7b\"cep\":\"00000000\"\x7d")).1.body =
      some (if bodyAllowedForStatus 404 then str "\x7b\"message\":\"can not find zipcode\"\x7d\n"
        else []) ∧
    (404 ≠ 304 →
      (ServiceA.cepHandler
        (sampleEnv "" [("http://serviceb:8081/cep",
          answer 404 "\x7b\"message\":\"can not find zipcode\"\x7d\n")])
        (post "\x7b\"cep\":\"00000000\"\x7d")).1.sentHeader.Get (str "Content-Type") =
      str "application/json") ∧
    (404 = 304 →
      (ServiceA.cepHandler
        (sampleEnv "" [("http://serviceb:8081/cep",
          answer 404 "\x7b\"message\":\"can not find zipcode\"\x7d\n")])
        (post "\x7b\"cep\":\"00000000\"\x7d")).1.sentHeader = []) :=
  serviceA_relays_downstream
    (sampleEnv "" [("http://serviceb:8081/cep",
      answer 404 "\x7b\"message\":\"can not find zipcode\"\x7d\n")])
    (post "\x7b\"cep\":\"00000000\"\x7d") { CEP := str "00000000" }
    { Method := str "POST", URL := str "http://serviceb:8081/cep",
      Header := [(str "Content-Type", str "application/json")],
      Body := str "\x7b\"cep\":\"00000000\"\x7d", InsecureSkipVerify := false }
    404 (str "\x7b\"message\":\"can not find zipcode\"\x7d\n")
    (by decide) (by decide) (by decide) (by decide) (by decide) (by decide)

/-- C10.  For every POST request that the validator of `serviceA` accepts,
every request the handler sends downstream carries as its body the JSON
serialisation of the decoded request, and decoding that body as a
`CEPRequest` gives back the very code that was validated; the request is
sent as soon as its URL is accepted. -/
theorem serviceA_forwards_same_code (env : Env) (r : Request) (req : CEPRequest)
    (hm : r.Method = str "POST") (hd : CEPRequest.Decode r.Body = .ok req)
    (hv : cepRegex.MatchString req.CEP = true) :
    (∀ q ∈ outboundCalls (ServiceA.cepHandler env r).2,
      CEPRequest.Marshal req = .ok q.Body ∧
      CEPRequest.Decode q.Body = .ok { CEP := req.CEP } ∧
      q.Method = str "POST") ∧
    (env.parseURL (ServiceA.serviceBURL env) = true →
      ∃ q, outboundCalls (ServiceA.cepHandler env r).2 = [q]) := by
  have hc := serviceA_valid_calls env r req hm hd hv
  have hplain : ∀ b ∈ req.CEP, plainByte b.toNat := fun b hb =>
    plainByte_of_digit _ (((cepRegex_MatchString_iff req.CEP).1 hv).2 b hb)
  constructor
  · intro q hq
    rw [hc] at hq
    split at hq
    · simp only [List.mem_singleton] at hq
      subst hq
      exact ⟨rfl, CEPRequest_roundtrip req.CEP hplain, rfl⟩
    · simp at hq
  · intro hp
    exact ⟨_, by rw [hc, if_pos hp]⟩

/-- Witness of C10: the code `01310930`. -/
theorem serviceA_forwards_same_code_witness :
    outboundCalls (ServiceA.cepHandler (sampleEnv "" []) (post " \x7b \"CEP\" : \"01310930\" \x7d ")).2 =
      [{ Method := str "POST", URL := str "http://serviceb:8081/cep",
         Header := [(str "Content-Type", str "application/json")],
         Body := str "\x7b\"cep\":\"01310930\"\x7d", InsecureSkipVerify := false }] ∧
    ((∀ q ∈ outboundCalls
          (ServiceA.cepHandler (sampleEnv "" []) (post " \x7b \"CEP\" : \"01310930\" \x7d ")).2,
        CEPRequest.Marshal { CEP := str "01310930" } = .ok q.Body ∧
        CEPRequest.Decode q.Body = .ok { CEP := str "01310930" } ∧
        q.Method = str "POST") ∧
      ((sampleEnv "" []).parseURL (ServiceA.serviceBURL (sampleEnv "" [])) = true →
        ∃ q, outboundCalls
          (ServiceA.cepHandler (sampleEnv "" []) (post " \x7b \"CEP\" : \"01310930\" \x7d ")).2 = [q])) :=
  ⟨by decide,
   serviceA_forwards_same_code (sampleEnv "" []) (post " \x7b \"CEP\" : \"01310930\" \x7d ")
     { CEP := str "01310930" } (by decide) (by decide) (by decide)⟩

/-- The handler of `serviceB` never answers 422. -/
theorem serviceB_never_422 (env : Env) (r : Request) :
    (ServiceB.cepHandler env r).1.StatusCode ≠ 422 := by
  by_cases hm : r.Method = str "POST"
  · cases hd : CEPRequest.Decode r.Body with
    | error e =>
      unfold ServiceB.cepHandler
      simp only [hm, hd, ne_eq, not_true_eq_false, if_false, withSpan_fst]
      rw [Error_StatusCode _ 400 (by decide)]
      decide
    | ok req =>
      rcases hc : ServiceB.getCityByCEP env req.CEP with ⟨res, ev1⟩
      cases res with
      | error err =>
        rw [serviceB_directory_error env r req err ev1 hm hd hc, withSpan_fst]
        have hne : err ≠ .ErrInvalidCEP := by
          have := getCityByCEP_ne_ErrInvalidCEP env req.CEP
          rw [hc] at this
          intro h
          exact this (by rw [h])
        rw [if_neg hne]
        split
        · rw [EncodeMessage_StatusCode 404 _ (by decide)]; decide
        · rw [Error_StatusCode _ 500 (by decide)]; decide
      | ok city =>
        rcases ht : ServiceB.getTemperature env city with ⟨res2, ev2⟩
        cases res2 with
        | error err =>
          rw [serviceB_weather_error env r req city err ev1 ev2 hm hd hc ht, withSpan_fst,
            Error_StatusCode _ 500 (by decide)]
          decide
        | ok tempC =>
          rw [serviceB_composed env r req city tempC ev1 ev2 hm hd hc ht, withSpan_fst,
            EncodeResponse_StatusCode]
          decide
  · unfold ServiceB.cepHandler
    simp only [hm, ne_eq, not_false_eq_true, if_true, withSpan_fst]
    rw [Error_StatusCode _ 405 (by decide)]
    decide

/-- C3 (the code departs from it).  The claim asks `serviceB` to answer 422
with `{"message":"invalid zipcode"}` whenever the decoded code is not eight
ASCII digits.  The handler has the branch for `ErrInvalidCEP`, but
`getCityByCEP` never returns that error and nothing validates the code: no
request is answered with 422.  On the code `123` the directory API is asked;
when it answers 400 the response is 404 with `can not find zipcode`, and when
it answers with a city the response is the composed body. -/
theorem serviceB_does_not_validate :
    CEPRequest.Decode (post "\x7b\"cep\":\"123\"\x7d").Body = .ok { CEP := str "123" } ∧
    cepRegex.MatchString (str "123") = false ∧
    (ServiceB.cepHandler (directoryEnv 400 "Bad Request") (post "\x7b\"cep\":\"123\"\x7d")).1.StatusCode
      = 404 ∧
    (ServiceB.cepHandler (directoryEnv 400 "Bad Request") (post "\x7b\"cep\":\"123\"\x7d")).1.body
      = [.bytes (str "\x7b\"message\":\"can not find zipcode\"\x7d\n")] ∧
    outboundCalls (ServiceB.cepHandler (directoryEnv 400 "Bad Request")
        (post "\x7b\"cep\":\"123\"\x7d")).2
      = [ServiceB.directoryRequest (str "123")] ∧
    (ServiceB.cepHandler (saoPauloEnv "key" "25.0") (post "\x7b\"cep\":\"123\"\x7d")).1.StatusCode
      = 200 ∧
    (ServiceB.cepHandler (saoPauloEnv "key" "25.0") (post "\x7b\"cep\":\"123\"\x7d")).1.body
      = [.json { City := str "São Paulo", TempC := 25, TempF := 77, TempK := 298 }] ∧
    (∀ (env : Env) (r : Request), (ServiceB.cepHandler env r).1.StatusCode ≠ 422) := by
  refine ⟨by decide, by decide, by decide, by decide, by decide, by decide!, by decide!,
    serviceB_never_422⟩

/-- C5 as stated fails.  The weather fetcher returns the temperature `1e308`
that the weather API reports; `tempC*1.8 + 32` then overflows to an infinity,
however the build evaluates it, the encoder refuses the value and the
response carries no temperature at all.  Nor is the Fahrenheit value fixed by
`tempC`: at 21.0 a build that fuses the product and the sum answers with a
value (69.8) that differs from the separately rounded one
(69.80000000000001). -/
theorem serviceB_composition_not_total :
    (ServiceB.getCityByCEP (saoPauloEnv "key" "1e308") (str "01310930")).1 = .ok (str "São Paulo") ∧
    (ServiceB.getTemperature (saoPauloEnv "key" "1e308") (str "São Paulo")).1 = .ok 1e308 ∧
    Float64.mulAdd false 1e308 1.8 32 = .inf false ∧
    Float64.mulAdd true 1e308 1.8 32 = .inf false ∧
    (∀ resp, Chunk.json resp ∉
      (ServiceB.cepHandler (saoPauloEnv "key" "1e308") (post "\x7b\"cep\":\"01310930\"\x7d")).1.body) ∧
    (∀ resp, Chunk.json resp ∉
      (ServiceB.cepHandler (saoPauloEnv "key" "1e308").withFused
        (post "\x7b\"cep\":\"01310930\"\x7d")).1.body) ∧
    (ServiceB.getTemperature (saoPauloEnv "key" "21.0") (str "São Paulo")).1 = .ok 21 ∧
    (ServiceB.cepHandler (saoPauloEnv "key" "21.0") (post "\x7b\"cep\":\"01310930\"\x7d")).1.body
      = [.json { City := str "São Paulo", TempC := 21, TempF := .finite false 4911738343600948 1028,
                 TempK := 294 }] ∧
    (ServiceB.cepHandler (saoPauloEnv "key" "21.0").withFused
        (post "\x7b\"cep\":\"01310930\"\x7d")).1.body
      = [.json { City := str "São Paulo", TempC := 21, TempF := .finite false 4911738343600947 1028,
                 TempK := 294 }] ∧
    (69.8 : Float64) = .finite false 4911738343600947 1028 := by
  have h1 : (ServiceB.cepHandler (saoPauloEnv "key" "1e308")
      (post "\x7b\"cep\":\"01310930\"\x7d")).1.body = [] := by decide!
  have h2 : (ServiceB.cepHandler (saoPauloEnv "key" "1e308").withFused
      (post "\x7b\"cep\":\"01310930\"\x7d")).1.body = [] := by decide!
  refine ⟨by decide, by decide!, by decide!, by decide!, ?_, ?_, by decide!, by decide!, by decide!,
    by decide!⟩
  · intro resp
    rw [h1]
    simp
  · intro resp
    rw [h2]
    simp

/-- C5 as amended.  Whenever the directory resolver returns `city` and the
weather fetcher returns `tempC` (of either sign), the handler of `serviceB`
composes the value with `City = city`, `TempC = tempC`, `TempK = tempC + 273`
and `TempF = tempC*1.8 + 32`, in `float64` arithmetic, the last expression
evaluated as the build does (the product and the sum rounded separately, or
fused into one rounding); the response has status 200, and its body is that
value when the three numbers are finite and is empty when they are not.  For
São Paulo at 25.0 the response is status 200 with `TempF = 77` and
`TempK = 298`, and at -40.0 it is -40 and 233, on either kind of build. -/
theorem serviceB_composes_temperatures :
    (∀ (env : Env) (r : Request) (req : CEPRequest) (city : Bytes) (tempC : Float64)
        (ev1 ev2 : List Event),
      r.Method = str "POST" → CEPRequest.Decode r.Body = .ok req →
      ServiceB.getCityByCEP env req.CEP = (.ok city, ev1) →
      ServiceB.getTemperature env city = (.ok tempC, ev2) →
      (ServiceB.cepHandler env r).1.StatusCode = 200 ∧
      (ServiceB.cepHandler env r).1.panicked = false ∧
      (ServiceB.cepHandler env r).1.body =
        if Response.encodable
            { City := city, TempC := tempC, TempF := Float64.mulAdd env.fused tempC 1.8 32,
              TempK := tempC + 273 }
        then [.json { City := city, TempC := tempC,
                      TempF := Float64.mulAdd env.fused tempC 1.8 32, TempK := tempC + 273 }]
        else []) ∧
    (∀ x y z : Float64, Float64.mulAdd false x y z = x * y + z) ∧
    (∀ x y z : Float64, Float64.mulAdd true x y z = Float64.fma x y z) ∧
    (Float64.mulAdd false 25 1.8 32 = 77 ∧ Float64.mulAdd true 25 1.8 32 = 77 ∧
      (25 : Float64) + 273 = 298) ∧
    (Float64.mulAdd false (-40) 1.8 32 = -40 ∧ Float64.mulAdd true (-40) 1.8 32 = -40 ∧
      (-40 : Float64) + 273 = 233) ∧
    (ServiceB.cepHandler (saoPauloEnv "key" "25.0") (post "\x7b\"cep\":\"01310930\"\x7d")).1.StatusCode
      = 200 ∧
    (ServiceB.cepHandler (saoPauloEnv "key" "25.0") (post "\x7b\"cep\":\"01310930\"\x7d")).1.body
      = [.json { City := str "São Paulo", TempC := 25, TempF := 77, TempK := 298 }] ∧
    (ServiceB.cepHandler (saoPauloEnv "key" "25.0").withFused
        (post "\x7b\"cep\":\"01310930\"\x7d")).1.body
      = [.json { City := str "São Paulo", TempC := 25, TempF := 77, TempK := 298 }] ∧
    (ServiceB.cepHandler (saoPauloEnv "key" "-40.0") (post "\x7b\"cep\":\"01310930\"\x7d")).1.body
      = [.json { City := str "São Paulo", TempC := -40, TempF := -40, TempK := 233 }] ∧
    (ServiceB.cepHandler (saoPauloEnv "key" "-40.0").withFused
        (post "\x7b\"cep\":\"01310930\"\x7d")).1.body
      = [.json { City := str "São Paulo", TempC := -40, TempF := -40, TempK := 233 }] := by
  refine ⟨?_, fun _ _ _ => rfl, fun _ _ _ => rfl, ⟨by decide!, by decide!, by decide!⟩,
    ⟨by decide!, by decide!, by decide!⟩, by decide!, by decide!, by decide!, by decide!,
    by decide!⟩
  intro env r req city tempC ev1 ev2 hm hd hc ht
  rw [serviceB_composed env r req city tempC ev1 ev2 hm hd hc ht, withSpan_fst,
    EncodeResponse_StatusCode, EncodeResponse_body, EncodeResponse_eq]
  refine ⟨rfl, ?_, rfl⟩
  split <;> rfl

/-- Witness of C5 as amended: São Paulo at 25.0. -/
theorem serviceB_composes_temperatures_witness :
    (ServiceB.cepHandler (saoPauloEnv "key" "25.0") (post "\x7b\"cep\":\"01310930\"\x7d")).1.StatusCode
      = 200 ∧
    (ServiceB.cepHandler (saoPauloEnv "key" "25.0")
      (post "\x7b\"cep\":\"01310930\"\x7d")).1.panicked = false ∧
    (ServiceB.cepHandler (saoPauloEnv "key" "25.0") (post "\x7b\"cep\":\"01310930\"\x7d")).1.body =
      if Response.encodable
          { City := str "São Paulo", TempC := 25,
            TempF := Float64.mulAdd (saoPauloEnv "key" "25.0").fused 25 1.8 32,
            TempK := (25 : Float64) + 273 }
      then [.json { City := str "São Paulo", TempC := 25,
                    TempF := Float64.mulAdd (saoPauloEnv "key" "25.0").fused 25 1.8 32,
                    TempK := (25 : Float64) + 273 }]
      else [] :=
  serviceB_composes_temperatures.1 (saoPauloEnv "key" "25.0")
    (post "\x7b\"cep\":\"01310930\"\x7d") { CEP := str "01310930" } (str "São Paulo") 25
    [.spanStart (str "serviceB") (str "getCityByCEP"),
     .http (ServiceB.directoryRequest (str "01310930")), .spanEnd (str "getCityByCEP")]
    [ServiceB.weatherSpan, .spanAttr (str "getTemperature") (str "city") (str "São Paulo"),
     .http (ServiceB.weatherRequest (saoPauloEnv "key" "25.0") (str "São Paulo")),
     .spanEnd (str "getTemperature")]
    (by decide) (by decide) (by decide) (by decide!)

theorem getCityByCEP_unfold (env : Env) (cep : Bytes) :
    ServiceB.getCityByCEP env cep =
      withSpan (str "serviceB") (str "getCityByCEP") []
        (if !env.parseURL (ServiceB.directoryRequest cep).URL then
          (.error (.other "net/http: invalid URL"), [])
        else
          match env.transport (ServiceB.directoryRequest cep) with
          | .failure =>
            (.error (.other "client.Do failed"), [.http (ServiceB.directoryRequest cep)])
          | .response StatusCode body =>
            if StatusCode ≠ 200 then
              (.error .ErrCEPNotFound, [.http (ServiceB.directoryRequest cep)])
            else
              match body with
              | none =>
                (.error (.other "io.ReadAll failed"), [.http (ServiceB.directoryRequest cep)])
              | some body =>
                match ViaCEPResponse.Unmarshal body with
                | .error e => (.error e, [.http (ServiceB.directoryRequest cep)])
                | .ok viaCEPResp =>
                  if 0 < viaCEPResp.Erro.length ∨ viaCEPResp.Localidade = [] then
                    (.error .ErrCEPNotFound, [.http (ServiceB.directoryRequest cep)])
                  else (.ok viaCEPResp.Localidade, [.http (ServiceB.directoryRequest cep)])) := rfl

theorem outboundCalls_getCityByCEP (env : Env) (cep : Bytes) :
    ∀ q ∈ outboundCalls (ServiceB.getCityByCEP env cep).2, q = ServiceB.directoryRequest cep := by
  intro q hq
  rcases getCityByCEP_trace env cep with h | h <;> rw [h] at hq <;> simp [outboundCalls] at hq
  exact hq

/-- C6.  In the handler of `serviceB`, for every POST request whose body
decodes: when the directory resolver fails with `ErrCEPNotFound` the response
is 404 with the JSON document `{"message":"can not find zipcode"}`; when it
fails with another error that is not `ErrInvalidCEP` the response is 500; in
both cases `getTemperature` is not invoked (its span is not in the trace) and
the only outbound calls are those of the directory resolver. -/
theorem serviceB_directory_failure (env : Env) (r : Request) (req : CEPRequest) (err : GoError)
    (ev1 : List Event)
    (hm : r.Method = str "POST") (hd : CEPRequest.Decode r.Body = .ok req)
    (hc : ServiceB.getCityByCEP env req.CEP = (.error err, ev1))
    (hne : err ≠ .ErrInvalidCEP) :
    (err = .ErrCEPNotFound →
      (ServiceB.cepHandler env r).1.StatusCode = 404 ∧
      (ServiceB.cepHandler env r).1.body =
        [.bytes (str "\x7b\"message\":\"can not find zipcode\"\x7d\n")]) ∧
    (err ≠ .ErrCEPNotFound → (ServiceB.cepHandler env r).1.StatusCode = 500) ∧
    ServiceB.weatherSpan ∉ (ServiceB.cepHandler env r).2 ∧
    outboundCalls (ServiceB.cepHandler env r).2 = outboundCalls ev1 ∧
    (∀ q ∈ outboundCalls (ServiceB.cepHandler env r).2, q = ServiceB.directoryRequest req.CEP) := by
  have hev : ev1 = (ServiceB.getCityByCEP env req.CEP).2 := by rw [hc]
  have hcalls : outboundCalls (ServiceB.cepHandler env r).2 = outboundCalls ev1 := by
    rw [serviceB_directory_error env r req err ev1 hm hd hc, outboundCalls_withSpan, if_neg hne]
    split <;> rfl
  refine ⟨?_, ?_, ?_, hcalls, ?_⟩
  · intro he
    rw [serviceB_directory_error env r req err ev1 hm hd hc, withSpan_fst, if_neg hne, if_pos he,
      EncodeMessage_StatusCode 404 _ (by decide), EncodeMessage_body 404 _ (by decide)]
    exact ⟨rfl, by decide⟩
  · intro he
    rw [serviceB_directory_error env r req err ev1 hm hd hc, withSpan_fst, if_neg hne, if_neg he,
      Error_StatusCode _ 500 (by decide)]
  · have h0 : (ServiceB.cepHandler env r).2 =
        [Event.spanStart (str "serviceB") (str "cepHandler")] ++ ev1
          ++ [Event.spanEnd (str "cepHandler")] := by
      rw [serviceB_directory_error env r req err ev1 hm hd hc, if_neg hne]
      split <;> simp [withSpan]
    have h1 : ServiceB.weatherSpan ≠ .spanStart (str "serviceB") (str "cepHandler") := by decide
    have h2 : ServiceB.weatherSpan ≠ .spanEnd (str "cepHandler") := by decide
    have h3 := getCityByCEP_no_weatherSpan env req.CEP
    rw [← hev] at h3
    rw [h0]
    simp [h1, h2, h3]
  · intro q hq
    rw [hcalls, hev] at hq
    exact outboundCalls_getCityByCEP env req.CEP q hq

/-- Witness of C6: the directory API answers the code `00000000` with its
error marker. -/
theorem serviceB_directory_failure_witness :
    ServiceB.getCityByCEP (directoryEnv 200 "\x7b\"erro\": \"true\"\x7d") (str "00000000") =
      (.error .ErrCEPNotFound,
        [.spanStart (str "serviceB") (str "getCityByCEP"),
         .http (ServiceB.directoryRequest (str "00000000")), .spanEnd (str "getCityByCEP")]) ∧
    ((GoError.ErrCEPNotFound = .ErrCEPNotFound →
      (ServiceB.cepHandler (directoryEnv 200 "\x7b\"erro\": \"true\"\x7d")
          (post "\x7b\"cep\":\"00000000\"\x7d")).1.StatusCode = 404 ∧
      (ServiceB.cepHandler (directoryEnv 200 "\x7b\"erro\": \"true\"\x7d")
          (post "\x7b\"cep\":\"00000000\"\x7d")).1.body =
        [.bytes (str "\x7b\"message\":\"can not find zipcode\"\x7d\n")]) ∧
    (GoError.ErrCEPNotFound ≠ .ErrCEPNotFound →
      (ServiceB.cepHandler (directoryEnv 200 "\x7b\"erro\": \"true\"\x7d")
          (post "\x7b\"cep\":\"00000000\"\x7d")).1.StatusCode = 500) ∧
    ServiceB.weatherSpan ∉
      (ServiceB.cepHandler (directoryEnv 200 "\x7b\"erro\": \"true\"\x7d")
          (post "\x7b\"cep\":\"00000000\"\x7d")).2 ∧
    outboundCalls (ServiceB.cepHandler (directoryEnv 200 "\x7b\"erro\": \"true\"\x7d")
          (post "\x7b\"cep\":\"00000000\"\x7d")).2 =
      outboundCalls [.spanStart (str "serviceB") (str "getCityByCEP"),
         .http (ServiceB.directoryRequest (str "00000000")), .spanEnd (str "getCityByCEP")] ∧
    (∀ q ∈ outboundCalls (ServiceB.cepHandler (directoryEnv 200 "\x7b\"erro\": \"true\"\x7d")
          (post "\x7b\"cep\":\"00000000\"\x7d")).2,
      q = ServiceB.directoryRequest (CEPRequest.mk (str "00000000")).CEP)) :=
  ⟨by decide,
   serviceB_directory_failure (directoryEnv 200 "\x7b\"erro\": \"true\"\x7d")
     (post "\x7b\"cep\":\"00000000\"\x7d") { CEP := str "00000000" } .ErrCEPNotFound
     [.spanStart (str "serviceB") (str "getCityByCEP"),
      .http (ServiceB.directoryRequest (str "00000000")), .spanEnd (str "getCityByCEP")]
     (by decide) (by decide) (by decide) (by decide)⟩

/-- C7 as stated fails: a directory answer with status 201 (a 2xx status)
whose payload decodes to the city São Paulo with no error marker makes
`getCityByCEP` fail with `ErrCEPNotFound`; it does not return the city. -/
theorem getCityByCEP_fails_on_201 :
    (directoryEnv 201 "\x7b\"localidade\":\"São Paulo\"\x7d").transport
        (ServiceB.directoryRequest (str "01310930")) =
      .response 201 (some (str "\x7b\"localidade\":\"São Paulo\"\x7d")) ∧
    ViaCEPResponse.Unmarshal (str "\x7b\"localidade\":\"São Paulo\"\x7d") =
      .ok { Localidade := str "São Paulo", Erro := [] } ∧
    (ServiceB.getCityByCEP (directoryEnv 201 "\x7b\"localidade\":\"São Paulo\"\x7d")
        (str "01310930")).1 = .error .ErrCEPNotFound ∧
    (ServiceB.getCityByCEP (directoryEnv 201 "\x7b\"localidade\":\"São Paulo\"\x7d")
        (str "01310930")).1 ≠ .ok (str "São Paulo") := by
  refine ⟨by decide, by decide, by decide, by decide⟩

/-- C7 as amended.  For every answer of the directory API to the call that
`getCityByCEP` issues: when the status is not 200 the function fails with
`ErrCEPNotFound`; when the status is 200 and the payload decodes with the
error marker (a non-empty raw `erro` value) or with an empty city, it fails
with `ErrCEPNotFound`; when the status is 200 and the payload decodes with no
error marker and a non-empty city, it returns exactly that city. -/
theorem getCityByCEP_outcomes (env : Env) (cep : Bytes) (q : OutboundRequest) (status : Nat)
    (body : Option Bytes)
    (hq : outboundCalls (ServiceB.getCityByCEP env cep).2 = [q])
    (ha : env.transport q = .response status body) :
    (status ≠ 200 → (ServiceB.getCityByCEP env cep).1 = .error .ErrCEPNotFound) ∧
    (∀ (b : Bytes) (p : ViaCEPResponse), status = 200 → body = some b →
      ViaCEPResponse.Unmarshal b = .ok p → (0 < p.Erro.length ∨ p.Localidade = []) →
      (ServiceB.getCityByCEP env cep).1 = .error .ErrCEPNotFound) ∧
    (∀ (b : Bytes) (p : ViaCEPResponse), status = 200 → body = some b →
      ViaCEPResponse.Unmarshal b = .ok p → p.Erro = [] → p.Localidade ≠ [] →
      (ServiceB.getCityByCEP env cep).1 = .ok p.Localidade) := by
  have hq2 : q = ServiceB.directoryRequest cep :=
    outboundCalls_getCityByCEP env cep q (by rw [hq]; simp)
  subst hq2
  have hp : env.parseURL (ServiceB.directoryRequest cep).URL = true := by
    cases hp : env.parseURL (ServiceB.directoryRequest cep).URL with
    | true => rfl
    | false =>
      exfalso
      rw [getCityByCEP_unfold, outboundCalls_withSpan] at hq
      simp only [hp, Bool.not_false, if_true, outboundCalls] at hq
      exact absurd hq (by simp)
  refine ⟨?_, ?_, ?_⟩
  · intro hs
    rw [getCityByCEP_unfold, withSpan_fst]
    simp only [hp, ha, Bool.not_true, Bool.false_eq_true, if_false, hs, ne_eq, not_false_eq_true,
      if_true]
  · intro b p hs hb hu hmark
    subst hs hb
    rw [getCityByCEP_unfold, withSpan_fst]
    simp only [hp, ha, hu, Bool.not_true, Bool.false_eq_true, if_false, ne_eq,
      not_true_eq_false, hmark, if_true]
  · intro b p hs hb hu he hl
    subst hs hb
    have hmark : ¬ (0 < p.Erro.length ∨ p.Localidade = []) := by
      simp [he, hl]
    rw [getCityByCEP_unfold, withSpan_fst]
    simp only [hp, ha, hu, Bool.not_true, Bool.false_eq_true, if_false, ne_eq,
      not_true_eq_false, hmark]

/-- Witness of C7 as amended: the directory API answers 200 with São Paulo. -/
theorem getCityByCEP_outcomes_witness :
    (200 ≠ 200 →
      (ServiceB.getCityByCEP (directoryEnv 200 "\x7b\"localidade\":\"São Paulo\"\x7d")
        (str "01310930")).1 = .error .ErrCEPNotFound) ∧
    (∀ (b : Bytes) (p : ViaCEPResponse), 200 = 200 →
      some (str "\x7b\"localidade\":\"São Paulo\"\x7d") = some b →
      ViaCEPResponse.Unmarshal b = .ok p → (0 < p.Erro.length ∨ p.Localidade = []) →
      (ServiceB.getCityByCEP (directoryEnv 200 "\x7b\"localidade\":\"São Paulo\"\x7d")
        (str "01310930")).1 = .error .ErrCEPNotFound) ∧
    (∀ (b : Bytes) (p : ViaCEPResponse), 200 = 200 →
      some (str "\x7b\"localidade\":\"São Paulo\"\x7d") = some b →
      ViaCEPResponse.Unmarshal b = .ok p → p.Erro = [] → p.Localidade ≠ [] →
      (ServiceB.getCityByCEP (directoryEnv 200 "\x7b\"localidade\":\"São Paulo\"\x7d")
        (str "01310930")).1 = .ok p.Localidade) :=
  getCityByCEP_outcomes (directoryEnv 200 "\x7b\"localidade\":\"São Paulo\"\x7d") (str "01310930")
    (ServiceB.directoryRequest (str "01310930")) 200
    (some (str "\x7b\"localidade\":\"São Paulo\"\x7d")) (by decide) (by decide)

/-- Without an API key `getTemperature` fails before any outbound call. -/
theorem getTemperature_no_key (env : Env) (city : Bytes)
    (hk : env.Getenv (str "WEATHER_API_KEY") = []) :
    ServiceB.getTemperature env city =
      (.error (.other "WEATHER_API_KEY not set"),
       [ServiceB.weatherSpan, .spanAttr (str "getTemperature") (str "city") city,
        .spanEnd (str "getTemperature")]) := by
  unfold ServiceB.getTemperature
  simp only [hk, if_true]
  rfl

/-- C8.  When `WEATHER_API_KEY` is missing (reads as empty), for every POST
request to `serviceB` whose body decodes and whose directory lookup succeeds,
`getTemperature` fails without issuing any outbound call, the handler answers
500, and the only outbound calls of the request are those of the directory
lookup. -/
theorem serviceB_missing_api_key (env : Env) (r : Request) (req : CEPRequest) (city : Bytes)
    (ev1 : List Event)
    (hk : env.Getenv (str "WEATHER_API_KEY") = [])
    (hm : r.Method = str "POST") (hd : CEPRequest.Decode r.Body = .ok req)
    (hc : ServiceB.getCityByCEP env req.CEP = (.ok city, ev1)) :
    (∃ e, (ServiceB.getTemperature env city).1 = .error e) ∧
    outboundCalls (ServiceB.getTemperature env city).2 = [] ∧
    (ServiceB.cepHandler env r).1.StatusCode = 500 ∧
    outboundCalls (ServiceB.cepHandler env r).2 = outboundCalls ev1 ∧
    (∀ q ∈ outboundCalls (ServiceB.cepHandler env r).2, q = ServiceB.directoryRequest req.CEP) := by
  have ht := getTemperature_no_key env city hk
  have hcalls : outboundCalls (ServiceB.cepHandler env r).2 = outboundCalls ev1 := by
    rw [serviceB_weather_error env r req city _ ev1 _ hm hd hc ht, outboundCalls_withSpan,
      outboundCalls_append]
    simp [outboundCalls, ServiceB.weatherSpan]
  refine ⟨⟨_, by rw [ht]⟩, ?_, ?_, hcalls, ?_⟩
  · rw [ht]
    rfl
  · rw [serviceB_weather_error env r req city _ ev1 _ hm hd hc ht, withSpan_fst,
      Error_StatusCode _ 500 (by decide)]
  · intro q hq
    have hev : ev1 = (ServiceB.getCityByCEP env req.CEP).2 := by rw [hc]
    rw [hcalls, hev] at hq
    exact outboundCalls_getCityByCEP env req.CEP q hq

/-- Witness of C8: the directory API knows the city, the key is not set. -/
theorem serviceB_missing_api_key_witness :
    (∃ e, (ServiceB.getTemperature (saoPauloEnv "" "25.0") (str "São Paulo")).1 = .error e) ∧
    outboundCalls (ServiceB.getTemperature (saoPauloEnv "" "25.0") (str "São Paulo")).2 = [] ∧
    (ServiceB.cepHandler (saoPauloEnv "" "25.0") (post "\x7b\"cep\":\"01310930\"\x7d")).1.StatusCode
      = 500 ∧
    outboundCalls (ServiceB.cepHandler (saoPauloEnv "" "25.0")
        (post "\x7b\"cep\":\"01310930\"\x7d")).2 =
      outboundCalls [.spanStart (str "serviceB") (str "getCityByCEP"),
        .http (ServiceB.directoryRequest (str "01310930")), .spanEnd (str "getCityByCEP")] ∧
    (∀ q ∈ outboundCalls (ServiceB.cepHandler (saoPauloEnv "" "25.0")
        (post "\x7b\"cep\":\"01310930\"\x7d")).2,
      q = ServiceB.directoryRequest (CEPRequest.mk (str "01310930")).CEP) :=
  serviceB_missing_api_key (saoPauloEnv "" "25.0") (post "\x7b\"cep\":\"01310930\"\x7d")
    { CEP := str "01310930" } (str "São Paulo")
    [.spanStart (str "serviceB") (str "getCityByCEP"),
     .http (ServiceB.directoryRequest (str "01310930")), .spanEnd (str "getCityByCEP")]
    (by decide) (by decide) (by decide) (by decide)

/-- C9 as stated fails: with a POST request whose body decodes, a directory
lookup that succeeds and a weather fetch that succeeds with `1e308`, the
Fahrenheit value overflows to an infinity, the encoder refuses the value and
the handler, which drops the encoder's error, writes no body at all: the
response is status 200 with an empty body. -/
theorem serviceB_overflow_writes_nothing :
    (post "\x7b\"cep\":\"01310930\"\x7d").Method = str "POST" ∧
    CEPRequest.Decode (post "\x7b\"cep\":\"01310930\"\x7d").Body = .ok { CEP := str "01310930" } ∧
    (ServiceB.getCityByCEP (saoPauloEnv "key" "1e308") (str "01310930")).1 = .ok (str "São Paulo") ∧
    (ServiceB.getTemperature (saoPauloEnv "key" "1e308") (str "São Paulo")).1 = .ok 1e308 ∧
    (1e308 : Float64) * 1.8 + 32 = .inf false ∧
    (ServiceB.cepHandler (saoPauloEnv "key" "1e308") (post "\x7b\"cep\":\"01310930\"\x7d")).1.body
      = [] ∧
    (ServiceB.cepHandler (saoPauloEnv "key" "1e308") (post "\x7b\"cep\":\"01310930\"\x7d")).1.StatusCode
      = 200 := by
  refine ⟨by decide, by decide, by decide, by decide!, by decide!, by decide!, by decide!⟩

/-- The response of `serviceB` when the four stages succeed. -/
theorem serviceB_success (env : Env) (r : Request) (city : Bytes) (tempC : Float64)
    (h : ServiceB.stagesSucceed env r city tempC) :
    (ServiceB.cepHandler env r).1 =
      EncodeResponse { header := [(str "Content-Type", str "application/json")] }
        (ServiceB.compose env city tempC) := by
  obtain ⟨hm, req, hd, hc, ht⟩ := h
  rcases hc1 : ServiceB.getCityByCEP env req.CEP with ⟨res, ev1⟩
  rw [hc1] at hc
  simp only at hc
  subst hc
  rcases ht1 : ServiceB.getTemperature env city with ⟨res2, ev2⟩
  rw [ht1] at ht
  simp only at ht
  subst ht
  rw [serviceB_composed env r req city tempC ev1 ev2 hm hd hc1 ht1, withSpan_fst]
  rfl

/-- The response of `serviceB` when one of the four stages fails: one of the
fixed error bodies under one of the four error statuses. -/
theorem serviceB_failure (env : Env) (r : Request)
    (h : ¬ ∃ city tempC, ServiceB.stagesSucceed env r city tempC) :
    (ServiceB.cepHandler env r).1.StatusCode ∈ [405, 400, 404, 500] ∧
    ∃ b ∈ ServiceB.errorBodies, (ServiceB.cepHandler env r).1.body = [.bytes b] := by
  by_cases hm : r.Method = str "POST"
  · cases hd : CEPRequest.Decode r.Body with
    | error e =>
      have h0 : (ServiceB.cepHandler env r).1 = Error {} (str "invalid request body") 400 := by
        unfold ServiceB.cepHandler
        simp only [hm, hd, ne_eq, not_true_eq_false, if_false, withSpan_fst]
      rw [h0, Error_StatusCode _ 400 (by decide), Error_body _ 400 (by decide)]
      exact ⟨by decide, _, by decide, rfl⟩
    | ok req =>
      rcases hc : ServiceB.getCityByCEP env req.CEP with ⟨res, ev1⟩
      cases res with
      | error err =>
        rw [serviceB_directory_error env r req err ev1 hm hd hc, withSpan_fst]
        have hne : err ≠ .ErrInvalidCEP := by
          have := getCityByCEP_ne_ErrInvalidCEP env req.CEP
          rw [hc] at this
          intro h
          exact this (by rw [h])
        rw [if_neg hne]
        split
        · rw [EncodeMessage_StatusCode 404 _ (by decide), EncodeMessage_body 404 _ (by decide)]
          exact ⟨by decide, _, by decide, rfl⟩
        · rw [Error_StatusCode _ 500 (by decide), Error_body _ 500 (by decide)]
          exact ⟨by decide, _, by decide, rfl⟩
      | ok city =>
        rcases ht : ServiceB.getTemperature env city with ⟨res2, ev2⟩
        cases res2 with
        | error err =>
          rw [serviceB_weather_error env r req city err ev1 ev2 hm hd hc ht, withSpan_fst,
            Error_StatusCode _ 500 (by decide), Error_body _ 500 (by decide)]
          exact ⟨by decide, _, by decide, rfl⟩
        | ok tempC =>
          exact absurd ⟨city, tempC, hm, req, hd, by rw [hc], by rw [ht]⟩ h
  · have h0 : (ServiceB.cepHandler env r).1 = Error {} (str "Method not allowed") 405 := by
      unfold ServiceB.cepHandler
      simp only [hm, ne_eq, not_false_eq_true, if_true, withSpan_fst]
    rw [h0, Error_StatusCode _ 405 (by decide), Error_body _ 405 (by decide)]
    exact ⟨by decide, _, by decide, rfl⟩

/-- C9 as amended.  For every request to `serviceB`: the handler writes the
composed body (the city and the three temperatures) if and only if the method
is POST, the body decodes, the directory resolver succeeds, the weather
fetcher succeeds and the three temperatures are finite, and then the body is
exactly the composed value under the default status 200; whenever one of the
four stages fails, the response has a status among 405, 400, 422, 404 and 500
(in fact never 422) and its body is one of the fixed error texts, with no
city and no temperature. -/
theorem serviceB_composed_iff_stages (env : Env) (r : Request) :
    ((∃ resp, Chunk.json resp ∈ (ServiceB.cepHandler env r).1.body) ↔
      ∃ city tempC, ServiceB.stagesSucceed env r city tempC ∧
        (ServiceB.compose env city tempC).encodable = true) ∧
    (∀ city tempC, ServiceB.stagesSucceed env r city tempC →
      (ServiceB.compose env city tempC).encodable = true →
      (ServiceB.cepHandler env r).1.body = [.json (ServiceB.compose env city tempC)] ∧
      (ServiceB.cepHandler env r).1.StatusCode = 200) ∧
    ((¬ ∃ city tempC, ServiceB.stagesSucceed env r city tempC) →
      (ServiceB.cepHandler env r).1.StatusCode ∈ [405, 400, 422, 404, 500] ∧
      ∃ b ∈ ServiceB.errorBodies, (ServiceB.cepHandler env r).1.body = [.bytes b]) := by
  have hsucc : ∀ city tempC, ServiceB.stagesSucceed env r city tempC →
      (ServiceB.compose env city tempC).encodable = true →
      (ServiceB.cepHandler env r).1.body = [.json (ServiceB.compose env city tempC)] ∧
      (ServiceB.cepHandler env r).1.StatusCode = 200 := by
    intro city tempC hs he
    rw [serviceB_success env r city tempC hs, EncodeResponse_StatusCode, EncodeResponse_body,
      if_pos he]
    exact ⟨rfl, rfl⟩
  have hfail : (¬ ∃ city tempC, ServiceB.stagesSucceed env r city tempC) →
      (ServiceB.cepHandler env r).1.StatusCode ∈ [405, 400, 422, 404, 500] ∧
      ∃ b ∈ ServiceB.errorBodies, (ServiceB.cepHandler env r).1.body = [.bytes b] := by
    intro h
    refine ⟨?_, (serviceB_failure env r h).2⟩
    have h1 := (serviceB_failure env r h).1
    simp only [List.mem_cons, List.mem_singleton, List.not_mem_nil, or_false] at h1 ⊢
    omega
  refine ⟨⟨?_, ?_⟩, hsucc, hfail⟩
  · rintro ⟨resp, hresp⟩
    by_cases hs : ∃ city tempC, ServiceB.stagesSucceed env r city tempC
    · obtain ⟨city, tempC, hs⟩ := hs
      refine ⟨city, tempC, hs, ?_⟩
      rw [serviceB_success env r city tempC hs, EncodeResponse_body] at hresp
      cases he : (ServiceB.compose env city tempC).encodable with
      | true => rfl
      | false => simp [he] at hresp
    · obtain ⟨_, b, _, hb⟩ := serviceB_failure env r hs
      rw [hb] at hresp
      simp at hresp
  · rintro ⟨city, tempC, hs, he⟩
    exact ⟨ServiceB.compose env city tempC, by rw [(hsucc city tempC hs he).1]; simp⟩

/-- Witness of C9 as amended: a request refused for its method. -/
theorem serviceB_composed_iff_stages_witness :
    (ServiceB.cepHandler (saoPauloEnv "key" "25.0")
        { Method := str "GET", Body := [] }).1.StatusCode ∈ [405, 400, 422, 404, 500] ∧
    ∃ b ∈ ServiceB.errorBodies,
      (ServiceB.cepHandler (saoPauloEnv "key" "25.0")
        { Method := str "GET", Body := [] }).1.body = [.bytes b] :=
  (serviceB_composed_iff_stages (saoPauloEnv "key" "25.0") { Method := str "GET", Body := [] }).2.2
    (by
      rintro ⟨city, tempC, hm, _⟩
      exact absurd hm (by decide))
